import Mathlib

/-!
Verification development for the axenc compiler front end (lexer, parser,
and LLVM-IR builder).  The C++ sources are shallowly embedded: every
mutating method becomes a function on an explicit state value, fallible
code returns `Except`, `std::shared_ptr` fields that may be null become
`Option`, and the `std::map` containers become association lists kept in
ascending key order (the iteration order of `std::map`).  Class
declarations, which are shared through `shared_ptr` in C++, are stored in
a class table keyed by class name; a `ClassReferenceNode` is embedded as
the name of the declaration it points at.
-/

namespace Axen

/-! ## Character classification (C locale, ASCII inputs) -/

def isSpaceC (c : Char) : Bool :=
  c.toNat = 32 || c.toNat = 9 || c.toNat = 10 || c.toNat = 11 ||
  c.toNat = 12 || c.toNat = 13

def isDigitC (c : Char) : Bool :=
  48 ≤ c.toNat && c.toNat ≤ 57

def isAlphaC (c : Char) : Bool :=
  (97 ≤ c.toNat && c.toNat ≤ 122) || (65 ≤ c.toNat && c.toNat ≤ 90)

def isAlnumC (c : Char) : Bool :=
  isAlphaC c || isDigitC c

/-! ## Tokens (`lexer.hpp`) -/

inductive TokenType where
  | intLit | floatLit | stringLit
  | returnKw | breakKw | continueKw | ifKw | whileKw | elseKw | ptrKw
  | importKw | classKw | typedefKw
  | lparen | rparen | lbrace | rbrace | lbracket | rbracket
  | period | comma | semi | ampersand | dollar | percent
  | plus | minus | asterisk | slash | equals | less | greater
  | identifier | endOfFile
deriving DecidableEq, Repr

/-- The `keywordMap` table of `lexer.hpp`, as an association list. -/
def keywordMap : List (String × TokenType) :=
  [("return", .returnKw), ("break", .breakKw), ("continue", .continueKw),
   ("if", .ifKw), ("else", .elseKw), ("while", .whileKw),
   ("ptr", .ptrKw), ("import", .importKw), ("class", .classKw),
   ("typedef", .typedefKw)]

/-- The `symbolMap` table of `lexer.hpp`. -/
def symbolMap : List (Char × TokenType) :=
  [('(', .lparen), (')', .rparen), ('\x7b', .lbrace), ('\x7d', .rbrace),
   ('[', .lbracket), (']', .rbracket), ('.', .period), (',', .comma),
   ('+', .plus), ('-', .minus), ('*', .asterisk), ('/', .slash),
   ('=', .equals), ('<', .less), ('>', .greater), (';', .semi),
   ('&', .ampersand), ('$', .dollar), ('%', .percent)]

structure Token where
  type : TokenType
  src : String
  row : Int
  col : Int
deriving DecidableEq, Repr

/-- Errors that abort lexing: `exit(EXIT_FAILURE)` on an invalid character
or an unterminated string, and the uncaught `std::out_of_range` thrown by
`std::string::at` in `Lexer::peekChar`.  `gasOut` is a model artifact
only: the scanning loops are embedded with an iteration budget (`gas`),
and every call site passes a budget at least as large as the number of
unconsumed characters, which bounds the iteration count of every loop,
so `gasOut` is unreachable from the wrappers below. -/
inductive LexErr where
  | outOfRange
  | invalidChar (c : Char)
  | unterminatedString
  | gasOut
deriving DecidableEq, Repr

/-! ## Character cursor

The source text is a list of ASCII characters (`std::string` bytes); the
cursor bundles `srcCursor_`, `row_` and `col_`.  `Lexer::nextToken` only
touches these three fields, so it is embedded as a function on `Cursor`. -/

structure Cursor where
  i : Nat
  row : Int
  col : Int
deriving DecidableEq, Repr

/-- `Lexer::peekChar(offset)` as a partial read: `none` models the
`std::out_of_range` exception thrown by `src_.at`. -/
def peekChar? (src : List Char) (cur : Cursor) (off : Nat) : Option Char :=
  src.get? (cur.i + off)

/-- Character at the cursor, used only where the C++ loop guard
`srcCursor_ < src_.size()` already holds, so the default is never read. -/
def charAt (src : List Char) (cur : Cursor) : Char :=
  src.getD cur.i ' '

/-- `Lexer::consumeChar` (the cursor/row/column update; the consumed
character is re-read by callers through `charAt`).  Only used at positions
the enclosing guard has already bounds-checked. -/
def advanceChar (src : List Char) (cur : Cursor) : Cursor :=
  { i := cur.i + 1
    row := if charAt src cur = '\n' then cur.row + 1 else cur.row
    col := if charAt src cur = '\n' then 1 else cur.col + 1 }

/-- The `//` line-comment skip loop of `Lexer::nextToken`.  The loop
guard is `cursor < size`; `gas` only bounds the iteration count and is
always supplied ≥ `src.length`, which the guard makes sufficient. -/
def skipLineLoop (src : List Char) : Nat → Cursor → Cursor
  | 0, cur => cur
  | gas + 1, cur =>
      if cur.i < src.length then
        if charAt src cur ≠ '\n' then skipLineLoop src gas (advanceChar src cur)
        else cur
      else cur

/-- The `/* ... */` block-comment skip loop of `Lexer::nextToken`
(non-nesting; may run off the end without finding `*/`). -/
def skipBlockLoop (src : List Char) : Nat → Cursor → Cursor
  | 0, cur => cur
  | gas + 1, cur =>
      if cur.i + 1 < src.length then
        if charAt src cur = '*' && charAt src (advanceChar src cur) = '/' then
          advanceChar src (advanceChar src cur)
        else skipBlockLoop src gas (advanceChar src cur)
      else cur

/-- The digit-consuming loops of the integer-literal branch. -/
def scanDigits (src : List Char) : Nat → Cursor → List Char →
    List Char × Cursor
  | 0, cur, acc => (acc, cur)
  | gas + 1, cur, acc =>
      if cur.i < src.length then
        if isDigitC (charAt src cur) then
          scanDigits src gas (advanceChar src cur) (acc ++ [charAt src cur])
        else (acc, cur)
      else (acc, cur)

/-- The string-literal content loop, with escape processing. -/
def scanString (src : List Char) : Nat → Cursor → List Char →
    List Char × Cursor
  | 0, cur, acc => (acc, cur)
  | gas + 1, cur, acc =>
      if cur.i < src.length then
        if charAt src cur ≠ '"' then
          if charAt src cur = '\\' && decide (cur.i + 1 < src.length) then
            let esc := charAt src (advanceChar src cur)
            let unescaped :=
              if esc = 'n' then '\n'
              else if esc = 't' then '\t'
              else if esc = '"' then '"'
              else if esc = '\\' then '\\'
              else esc
            scanString src gas (advanceChar src (advanceChar src cur))
              (acc ++ [unescaped])
          else scanString src gas (advanceChar src cur) (acc ++ [charAt src cur])
        else (acc, cur)
      else (acc, cur)

/-- The identifier/keyword loop (`[A-Za-z0-9_]*` continuation). -/
def scanIdent (src : List Char) : Nat → Cursor → List Char →
    List Char × Cursor
  | 0, cur, acc => (acc, cur)
  | gas + 1, cur, acc =>
      if cur.i < src.length then
        if isAlnumC (charAt src cur) || charAt src cur = '_' then
          scanIdent src gas (advanceChar src cur) (acc ++ [charAt src cur])
        else (acc, cur)
      else (acc, cur)

/-- `Lexer::nextToken`.  The outer `while` loop is the recursion (each
`continue` branch has advanced the cursor, so `src.length + 1` iterations
bound it — see `nextToken`); the only unguarded `src_.at` access is the
look-ahead for a `.` after an integer literal, which surfaces as
`LexErr.outOfRange`. -/
def nextTokenGas (src : List Char) : Nat → Cursor →
    Except LexErr (Token × Cursor)
  | 0, _ => .error .gasOut
  | gas + 1, cur =>
      if cur.i < src.length then
        let c := charAt src cur
        if c = '\n' || isSpaceC c then
          nextTokenGas src gas (advanceChar src cur)
        else if c = '/' && decide (cur.i + 1 < src.length) &&
            charAt src (advanceChar src cur) = '/' then
          nextTokenGas src gas
            (skipLineLoop src src.length (advanceChar src (advanceChar src cur)))
        else if c = '/' && decide (cur.i + 1 < src.length) &&
            charAt src (advanceChar src cur) = '*' then
          nextTokenGas src gas
            (skipBlockLoop src src.length (advanceChar src (advanceChar src cur)))
        else
          match symbolMap.lookup c with
          | some t =>
              .ok ({ type := t, src := String.mk [c],
                     row := cur.row, col := cur.col },
                   advanceChar src cur)
          | none =>
              if isDigitC c then
                let s1 := scanDigits src src.length cur []
                match peekChar? src s1.2 0 with
                | none => .error .outOfRange
                | some ch =>
                    if ch = '.' then
                      let s2 := scanDigits src src.length
                          (advanceChar src s1.2) (s1.1 ++ ['.'])
                      let ty := if s2.1.length > s1.1.length + 1 then
                          TokenType.floatLit else TokenType.intLit
                      .ok ({ type := ty, src := String.mk s2.1,
                             row := cur.row, col := cur.col }, s2.2)
                    else
                      .ok ({ type := .intLit, src := String.mk s1.1,
                             row := cur.row, col := cur.col }, s1.2)
              else if c = '"' then
                let s1 := scanString src src.length (advanceChar src cur) []
                if s1.2.i ≥ src.length then .error .unterminatedString
                else
                  .ok ({ type := .stringLit, src := String.mk s1.1,
                         row := cur.row, col := cur.col }, advanceChar src s1.2)
              else if isAlphaC c || c = '_' then
                let s1 := scanIdent src src.length cur []
                let ty := match keywordMap.lookup (String.mk s1.1) with
                  | some t => t
                  | none => TokenType.identifier
                .ok ({ type := ty, src := String.mk s1.1,
                       row := cur.row, col := cur.col }, s1.2)
              else .error (.invalidChar c)
      else
        .ok ({ type := .endOfFile, src := String.mk (src.drop cur.i),
               row := 0, col := 0 }, cur)

/-- `Lexer::nextToken` at the cursor level: every `continue` of the outer
loop advances the cursor, so `src.length + 1` bounds its iterations. -/
def nextToken (src : List Char) (cur : Cursor) :
    Except LexErr (Token × Cursor) :=
  nextTokenGas src (src.length + 1) cur

/-! ## The lexer object (`class Lexer`) -/

structure Lexer where
  src : List Char
  srcCursor : Nat
  lookAhead : List Token
  tokensCursor : Nat
  row : Int
  col : Int
deriving DecidableEq, Repr

def Lexer.ofString (s : String) : Lexer :=
  { src := s.data, srcCursor := 0, lookAhead := [], tokensCursor := 0,
    row := 1, col := 1 }

/-- `Lexer::nextToken` at the object level: runs the cursor-level scanner
and writes back `srcCursor_`, `row_`, `col_`. -/
def Lexer.nextTok (lx : Lexer) : Except LexErr (Token × Lexer) :=
  match nextToken lx.src ⟨lx.srcCursor, lx.row, lx.col⟩ with
  | .error e => .error e
  | .ok (t, cur) =>
      .ok (t, { lx with srcCursor := cur.i, row := cur.row, col := cur.col })

/-- The deque-filling loop shared by `Lexer::peek`:
`while (lookAhead_.size() <= offset) lookAhead_.push_back(nextToken());`
Each iteration grows the deque by one token, so `offset + 1` iterations
always suffice. -/
def Lexer.fillGas : Nat → Lexer → Nat → Except LexErr Lexer
  | 0, _, _ => .error .gasOut
  | gas + 1, lx, offset =>
      if lx.lookAhead.length ≤ offset then
        match lx.nextTok with
        | .error e => .error e
        | .ok (t, lx') =>
            Lexer.fillGas gas { lx' with lookAhead := lx'.lookAhead ++ [t] }
              offset
      else .ok lx

def Lexer.fill (lx : Lexer) (offset : Nat) : Except LexErr Lexer :=
  Lexer.fillGas (offset + 2) lx offset

/-- A placeholder token; never observed (reads of the look-ahead deque are
always preceded by a fill that makes the index in range). -/
def dummyToken : Token := { type := .endOfFile, src := "", row := 0, col := 0 }

/-- `Lexer::peek(offset)`: fills the look-ahead deque up to `offset` and
returns `lookAhead_[offset]` together with the updated lexer. -/
def Lexer.peek (lx : Lexer) (offset : Nat := 0) :
    Except LexErr (Token × Lexer) :=
  match lx.fill offset with
  | .error e => .error e
  | .ok lx' => .ok (lx'.lookAhead.getD offset dummyToken, lx')

/-- `Lexer::peekT(t, offset)`. -/
def Lexer.peekT (lx : Lexer) (t : TokenType) (offset : Nat := 0) :
    Except LexErr (Bool × Lexer) :=
  match lx.peek offset with
  | .error e => .error e
  | .ok (tok, lx') => .ok (tok.type = t, lx')

/-- `Lexer::consume()`: tops up the deque if empty, then pops the front. -/
def Lexer.consume (lx : Lexer) : Except LexErr (Token × Lexer) :=
  match lx.lookAhead with
  | t :: rest => .ok (t, { lx with lookAhead := rest })
  | [] =>
      match lx.nextTok with
      | .error e => .error e
      | .ok (t, lx') => .ok (t, { lx' with lookAhead := [] })

/-- The `Lexer::LexerState` snapshot struct. -/
structure LexerState where
  srcCursor : Nat
  lookAhead : List Token
  tokensCursor : Nat
  row : Int
  col : Int
deriving DecidableEq, Repr

/-- `Lexer::saveState`. -/
def Lexer.saveState (lx : Lexer) : LexerState :=
  { srcCursor := lx.srcCursor, lookAhead := lx.lookAhead,
    tokensCursor := lx.tokensCursor, row := lx.row, col := lx.col }

/-- `Lexer::restoreState`. -/
def Lexer.restoreState (lx : Lexer) (s : LexerState) : Lexer :=
  { lx with
    srcCursor := s.srcCursor
    lookAhead := s.lookAhead
    tokensCursor := s.tokensCursor
    row := s.row
    col := s.col }

/-- One observation step on the lexer: a `peek` at some offset or a
`consume`, as performed by the parser. -/
inductive LexOp where
  | peekOp (offset : Nat)
  | consumeOp
deriving DecidableEq, Repr

/-- Runs a sequence of `peek`/`consume` observations, collecting every
observed token (type, text, row and column); stops at the first lexer
error, which is also recorded. -/
def runLexOps (lx : Lexer) : List LexOp → List Token × Option LexErr
  | [] => ([], none)
  | op :: rest =>
      let step := match op with
        | .peekOp off => lx.peek off
        | .consumeOp => lx.consume
      match step with
      | .error e => ([], some e)
      | .ok (t, lx') =>
          let r := runLexOps lx' rest
          (t :: r.1, r.2)

/-- Convenience: tokenize a whole string by repeated `consume`, up to `n`
tokens. -/
def tokenizeN (s : String) (n : Nat) : List Token × Option LexErr :=
  runLexOps (Lexer.ofString s) (List.replicate n .consumeOp)

/-! ## Ordered maps (`std::map<std::string, T>`)

A `std::map` iterates its entries in ascending key order, whatever the
insertion order was.  It is embedded as an association list kept sorted
by key; `operator[]` assignment, `insert` (which keeps an existing
entry), `find` and `std::distance(begin, find(k))` become the functions
below.  String comparison is `std::string::operator<`: lexicographic on
character codes. -/

def strLtL : List Char → List Char → Bool
  | [], [] => false
  | [], _ :: _ => true
  | _ :: _, [] => false
  | a :: as, b :: bs =>
      if a < b then true else if b < a then false else strLtL as bs

def strLt (a b : String) : Bool := strLtL a.data b.data

/-- `m[k] = v`: insert at the sorted position, overwriting an existing
entry with the same key. -/
def smapAssign (k : String) (v : α) : List (String × α) → List (String × α)
  | [] => [(k, v)]
  | (k', v') :: rest =>
      if strLt k k' then (k, v) :: (k', v') :: rest
      else if strLt k' k then (k', v') :: smapAssign k v rest
      else (k', v) :: rest

/-- `m.insert({k, v})`: like `smapAssign` but keeps an existing entry. -/
def smapInsert (k : String) (v : α) : List (String × α) → List (String × α)
  | [] => [(k, v)]
  | (k', v') :: rest =>
      if strLt k k' then (k, v) :: (k', v') :: rest
      else if strLt k' k then (k', v') :: smapInsert k v rest
      else (k', v') :: rest

/-- `m.find(k)` (order of traversal is irrelevant to the result). -/
def smapFind (m : List (String × α)) (k : String) : Option α :=
  m.lookup k

/-- `std::distance(m.begin(), m.find(k))`, the position of the entry in
iteration order. -/
def smapIndexOf (m : List (String × α)) (k : String) : Option Nat :=
  m.findIdx? (fun p => p.1 = k)

/-- `Parser::parseClass` re-opening: `members_.insert(new.begin(),
new.end())`, which keeps existing entries. -/
def smapInsertAll (m adds : List (String × α)) : List (String × α) :=
  adds.foldl (fun acc p => smapInsert p.1 p.2 acc) m

/-! ## Types and the AST (`nodes/types.hpp`, `nodes/expression.hpp`,
`nodes/statement.hpp`, `nodes/function.hpp`)

`ClassReferenceNode` holds a shared pointer to the `ClassNode`
declaration; declarations live in the parser's class table and are keyed
by class name, so the reference is embedded as that name.  A
`shared_ptr` that may be null is embedded as an `Option`. -/

inductive PrimitiveType where
  | void | bool | char | short | int | long | half | float | double | quad
deriving DecidableEq, Repr

inductive TypeNode where
  | primitive (ty : PrimitiveType) (sgn : Bool)
  | pointer (target : TypeNode)
  | array (target : TypeNode) (length : Int)
  | classref (className : String)
deriving DecidableEq, Repr

/-- The `isSigned()` virtual of `TypeNode`: stored flag for primitives,
delegation to the target for pointers and arrays, `false` for class
references. -/
def TypeNode.isSignedT : TypeNode → Bool
  | .primitive _ s => s
  | .pointer t => t.isSignedT
  | .array t _ => t.isSignedT
  | .classref _ => false

/-- A `ClassNode`: name plus the ordered member map
(`std::map<std::string, std::shared_ptr<TypeNode>>`; the mapped pointers
can be null, hence `Option`). -/
structure ClassNode where
  name : String
  members : List (String × Option TypeNode)
deriving DecidableEq, Repr

/-- `ClassNode::lookupMemberType`: `nullptr` both when the key is absent
and when the stored pointer is null, so the two collapse. -/
def ClassNode.lookupMemberType (c : ClassNode) (n : String) : Option TypeNode :=
  match smapFind c.members n with
  | some v => v
  | none => none

/-- `ClassNode::lookupMemberIndex`: `std::distance(begin, find(n))`;
`none` models the fatal internal error when the member is missing. -/
def ClassNode.lookupMemberIndex (c : ClassNode) (n : String) : Option Nat :=
  smapIndexOf c.members n

/-- `ClassNode::addMembers` (class re-opening):
`members_.insert(newMembers.begin(), newMembers.end())`. -/
def ClassNode.addMembers (c : ClassNode)
    (adds : List (String × Option TypeNode)) : ClassNode :=
  { c with members := smapInsertAll c.members adds }

inductive BinaryOperationType where
  | add | subtract | multiply | divide | less | more | equal
deriving DecidableEq, Repr

inductive ExpressionNode where
  | varref (name : String) (sgn : Bool)
  | structAccess (structExpr : ExpressionNode) (memberName structName : String)
      (sgn : Bool) (ty : String)
  | arrayAccess (arrayExpr idxExpr : ExpressionNode) (sgn : Bool) (ty : TypeNode)
  | ptrIndexAccess (ptrExpr idxExpr : ExpressionNode) (sgn : Bool) (ty : TypeNode)
  | dref (target : ExpressionNode) (derivedType : TypeNode) (sgn : Bool)
  | addressOf (target : ExpressionNode) (sgn : Bool)
  | intLit (value : Int)
  | floatLit (neg : Bool) (lit : String)
  | stringLit (value : String)
  | call (name : String) (args : List ExpressionNode) (sgn : Bool)
  | binop (op : BinaryOperationType) (lhs rhs : ExpressionNode) (sgn : Bool)
deriving Repr

/-- `ExpressionNode::isSigned()`: the flag given at construction;
`IntLiteral` and `FloatLiteral` pass `true`, `StringLiteral` `false`. -/
def ExpressionNode.isSignedE : ExpressionNode → Bool
  | .varref _ s => s
  | .structAccess _ _ _ s _ => s
  | .arrayAccess _ _ s _ => s
  | .ptrIndexAccess _ _ s _ => s
  | .dref _ _ s => s
  | .addressOf _ s => s
  | .intLit _ => true
  | .floatLit _ _ => true
  | .stringLit _ => false
  | .call _ _ s => s
  | .binop _ _ _ s => s

inductive StatementNode where
  | varDecl (ty : TypeNode) (name : String) (initVal : Option ExpressionNode)
  | assign (target value : ExpressionNode)
  | ret (value : Option ExpressionNode)
  | ifStmt (cond : ExpressionNode) (trueBody : List StatementNode)
      (falseBody : Option (List StatementNode))
  | whileStmt (cond : ExpressionNode) (body : List StatementNode)
  | exprStmt (e : ExpressionNode)
deriving Repr

/-- A `FunctionNode`.  The return type and the parameter types are
`shared_ptr`s that can be null when `parseType` failed to recognise a
type name, hence `Option`. -/
structure FunctionNode where
  name : String
  retType : Option TypeNode
  isPublic : Bool
  params : List (String × Option TypeNode)
  body : Option (List StatementNode)
  isDetached : Bool
deriving Repr

/-! ## The parser (`parser.hpp` and the parser translation units)

Every diagnostic is fatal in the C++ (`reportError` prints and calls
`exit`), so the parser is embedded in `Except`: each error constructor
stands for one family of diagnostic call sites.  `nullDeref` models
undefined behaviour from following a null `shared_ptr`; `outOfFuel` is a
model artifact only: the recursion budget of the embedding ran out (no
C++ behaviour corresponds to it, and theorems about successful parses
exclude it automatically). -/

inductive PErr where
  | lexErr (e : LexErr)
  | expectedToken (t : TokenType)
  | invalidIdentifier (id : String)
  | undefinedVariable (name : String)
  | derefNonPointer
  | memberOfNonStruct
  | subscriptNonArray
  | noSuchMember (structName memberName : String)
  | undefinedFunction (name : String)
  | memberCallWithoutInstance (name : String)
  | signednessMismatch
  | invalidBinaryOperator
  | unexpectedTokenInExpression
  | invalidTypedefTarget
  | assignmentInExpression
  | nullDeref
  | internalError
  | outOfFuel
deriving DecidableEq, Repr

/-- The parser's mutable state: the lexer handle and the symbol tables of
`class Parser`.  `classes` is the `classes_` vector (declaration
handles in push order, as names); `classTable` stores the shared
`ClassNode` objects those handles and every `ClassReferenceNode` point
to, keyed by class name. -/
structure ParserState where
  lexer : Lexer
  currentClassName : String
  functions : List FunctionNode
  classes : List String
  classTable : List (String × ClassNode)
  scopes : List (List (String × Option TypeNode))
  types : List (String × TypeNode)
deriving Repr

/-- The parser functions are explicit state transformers (the underlying
shape of the C++ member functions mutating `Parser`): they take the
parser state and return either a fatal diagnostic or a result together
with the updated state. -/
abbrev PM (α : Type) := ParserState → Except PErr (α × ParserState)

/-- Sequencing of two parser steps (the semicolon of the C++). -/
def pbind (m : Except PErr (α × ParserState)) (f : α → PM β) :
    Except PErr (β × ParserState) :=
  match m with
  | .error e => .error e
  | .ok (a, st) => f a st

def pok (a : α) : PM α := fun st => .ok (a, st)

def liftLex (f : Lexer → Except LexErr (α × Lexer)) : PM α := fun st =>
  match f st.lexer with
  | .error e => .error (.lexErr e)
  | .ok (a, lx) => .ok (a, { st with lexer := lx })

def pmPeek (off : Nat := 0) : PM Token := liftLex (fun lx => lx.peek off)

def pmPeekT (t : TokenType) (off : Nat := 0) : PM Bool :=
  liftLex (fun lx => lx.peekT t off)

def pmConsume : PM Token := liftLex Lexer.consume

/-- `Parser::expect`. -/
def expect (t : TokenType) : PM Token := fun st =>
  pbind (pmPeek 0 st) fun tok st =>
  if tok.type = t then pmConsume st else .error (.expectedToken t)

/-- `Parser::validateIdentifier`: fatal when the identifier contains an
underscore. -/
def validateIdentifier (id : String) : PM Unit := fun st =>
  if id.data.contains '_' then .error (.invalidIdentifier id)
  else .ok ((), st)

/-- `Parser::pushScope`. -/
def pushScope : PM Unit := fun st =>
  .ok ((), { st with scopes := [] :: st.scopes })

/-- `Parser::popScope`. -/
def popScope : PM Unit := fun st =>
  .ok ((), { st with scopes := match st.scopes with | [] => [] | _ :: r => r })

/-- `Parser::indexVariableType`: `scopes.back()[name] = type` (the top of
the stack is the head here). -/
def indexVariableType (name : String) (ty : Option TypeNode) : PM Unit :=
  fun st =>
    match st.scopes with
    | [] => .error .internalError
    | top :: rest => .ok ((), { st with scopes := smapAssign name ty top :: rest })

/-- `Parser::lookupVariableType`: walks the stack top-down; a found null
pointer is returned as-is, which every caller treats like an undefined
variable. -/
def scopesLookup (name : String) : List (List (String × Option TypeNode)) →
    Option TypeNode
  | [] => none
  | m :: rest =>
      match smapFind m name with
      | some v => v
      | none => scopesLookup name rest

def lookupVariableType (name : String) : PM (Option TypeNode) := fun st =>
  .ok (scopesLookup name st.scopes, st)

/-- `Parser::registerPrimitiveType` (`types_.insert`, which keeps an
existing binding). -/
def registerPrimitiveType (name : String) (ty : TypeNode) : PM Unit :=
  fun st => .ok ((), { st with types := smapInsert name ty st.types })

/-- `Parser::registerStructType`: binds `name` to a `ClassReferenceNode`
pointing at the declaration called `declName`. -/
def registerStructType (name : String) (declName : String) : PM Unit :=
  fun st =>
    .ok ((), { st with types := smapInsert name (.classref declName) st.types })

/-- `Parser::getTypeNode`. -/
def getTypeNode (name : String) : PM (Option TypeNode) := fun st =>
  .ok (smapFind st.types name, st)

/-- `Parser::lookupFunctionReturnType`: first function with a matching
mangled name; the outer `Option` is absence, the inner one the possibly
null stored return type. -/
def lookupFnRet (fns : List FunctionNode) (name : String) :
    Option (Option TypeNode) :=
  (fns.find? (fun f => f.name = name)).map (fun f => f.retType)

def lookupFunctionReturnType (name : String) : PM (Option (Option TypeNode)) :=
  fun st => .ok (lookupFnRet st.functions name, st)

/-- Follows the `shared_ptr<ClassNode>` held by a `ClassReferenceNode`:
the declaration registered under that class name.  The table always holds
every registered declaration, so a miss is the (unreachable) internal
error. -/
def getClassDecl (clsName : String) : PM ClassNode := fun st =>
  match smapFind st.classTable clsName with
  | some d => .ok (d, st)
  | none => .error .internalError

/-- `dynamic_pointer_cast<PrimitiveTypeNode>`. -/
def dynCastPrimitive : TypeNode → Option (PrimitiveType × Bool)
  | .primitive t s => some (t, s)
  | _ => none

/-- `dynamic_pointer_cast<ClassNode>` applied to a `TypeNode` handle, as
in `Parser::insertTypeDef`.  `ClassNode` is not part of the `TypeNode`
hierarchy — the four concrete subclasses are `PrimitiveTypeNode`,
`PointerTypeNode`, `ArrayTypeNode` and `ClassReferenceNode` — so this
runtime cross-cast fails for every value the registry can hold. -/
def dynCastClassNode : TypeNode → Option ClassNode
  | .primitive _ _ => none
  | .pointer _ => none
  | .array _ _ => none
  | .classref _ => none

/-- `dynamic_pointer_cast<ClassReferenceNode>`. -/
def dynCastClassRef : TypeNode → Option String
  | .classref n => some n
  | _ => none

/-- `Parser::insertTypeDef`.  A primitive target is re-registered under
the alias; the class branch dynamic-casts to `ClassNode` (see
`dynCastClassNode`), so a class target falls through to the fatal
"Invalid target type in typedef" diagnostic. -/
def insertTypeDef (aliasName : String) (targetName : String) : PM Unit :=
  fun st =>
  pbind (getTypeNode targetName st) fun targetType st =>
  match targetType.bind dynCastPrimitive with
  | some p => registerPrimitiveType aliasName (.primitive p.1 p.2) st
  | none =>
      match targetType.bind dynCastClassNode with
      | some decl => registerStructType aliasName decl.name st
      | none => .error .invalidTypedefTarget

/-! ### Type parsing (`Parser::parseType`, hex-aware variant) -/

def hexVal (c : Char) : Option Nat :=
  if isDigitC c then some (c.toNat - 48)
  else if 'a' ≤ c && c ≤ 'f' then some (c.toNat - 87)
  else if 'A' ≤ c && c ≤ 'F' then some (c.toNat - 55)
  else none

def stoiLoop (base : Nat) (acc : Int) : List Char → Int
  | [] => acc
  | c :: rest =>
      match hexVal c with
      | some v => if v < base then stoiLoop base (acc * base + v) rest else acc
      | none => acc

/-- `std::stoi(s, nullptr, base)` restricted to the shapes the parser
feeds it (integer-literal token text: digits, possibly with a `0x`/`0X`
prefix when `base` is 16); sign and leading whitespace never occur
there. -/
def stoiC (s : String) (base : Nat) : Int :=
  let cs := s.data
  let cs :=
    if base = 16 then
      match cs with
      | '0' :: x :: rest => if x = 'x' || x = 'X' then rest else cs
      | _ => cs
    else cs
  stoiLoop base 0 cs

/-- The `0x`/`0X` prefix test used before each `std::stoi` call:
`intStr.size() > 2 && intStr[0] == '0' && (intStr[1] == 'x' || 'X')`. -/
def hexBase (s : String) : Nat :=
  if s.length > 2 && s.data.getD 0 ' ' = '0' &&
      (s.data.getD 1 ' ' = 'x' || s.data.getD 1 ' ' = 'X') then 16 else 10

/-- The leading `ptr` counting loop of `Parser::parseType`.  (The
iteration budget is spelled with `Nat.rec` so that the kernel can unfold
concrete runs cheaply; the two cases read exactly like the
pattern-matching form.) -/
def parsePtrLoop : Nat → PM Nat :=
  Nat.rec (fun _ => .error .outOfFuel) (fun _fuel ih st =>
    pbind (pmPeekT .ptrKw 0 st) fun b st =>
    if b then
      pbind (pmConsume st) fun _ st =>
      pbind (ih st) fun n st =>
      .ok (n + 1, st)
    else .ok (0, st))

def applyPtrs : TypeNode → Nat → TypeNode
  | t, 0 => t
  | t, n + 1 => applyPtrs (.pointer t) n

/-- `Parser::parseType` (the variant with hexadecimal array lengths):
leading `ptr`s, a registered type name, an optional `[ INT ]` suffix;
`none` when the next token does not name a registered type. -/
def parseType (fuel : Nat) : PM (Option TypeNode) := fun st =>
  pbind (parsePtrLoop fuel st) fun ptrs st =>
  pbind (pmPeek 0 st) fun tok st =>
  pbind (getTypeNode tok.src st) fun newType st =>
  match newType with
  | some ty =>
      pbind (pmConsume st) fun _ st =>
      pbind (pmPeekT .lbracket 0 st) fun lb st =>
      pbind
        (if lb then
          pbind (pmConsume st) fun _ st =>
          pbind (expect .intLit st) fun intTok st =>
          pbind (expect .rbracket st) fun _ st =>
          .ok (stoiC intTok.src (hexBase intTok.src), st)
        else .ok ((0 : Int), st)) fun arrayLen st =>
      let ty := applyPtrs ty ptrs
      let ty := if arrayLen ≠ 0 then TypeNode.array ty arrayLen else ty
      .ok (some ty, st)
  | none => .ok (none, st)

/-- The `ptr`-counting part of `Parser::getNextTypeLength`. -/
def typeLenPtrLoop : Nat → Nat → PM Nat :=
  Nat.rec (fun _ _ => .error .outOfFuel) (fun _fuel ih i st =>
    pbind (pmPeekT .ptrKw i st) fun b st =>
    if b then ih (i + 1) st else .ok (i, st))

/-- `Parser::getNextTypeLength`: token length of the upcoming type, by
peeking only. -/
def getNextTypeLength (fuel : Nat) : PM Nat := fun st =>
  pbind (typeLenPtrLoop fuel 0 st) fun i st =>
  pbind (pmPeekT .identifier i st) fun b st =>
  let i := if b then i + 1 else i
  pbind (pmPeekT .lbracket i st) fun lb st =>
  if lb then
    let i := i + 1
    pbind (pmPeekT .intLit i st) fun il st =>
    let i := if il then i + 1 else i
    pbind (pmPeekT .rbracket i st) fun rb st =>
    .ok (if rb then i + 1 else i, st)
  else .ok (i, st)

/-! ### Expression parsing (`parser/expression.cpp` and `Parser::parseValue`) -/

/-- `getOperatorPrecedence`. -/
def getOperatorPrecedence : TokenType → Int
  | .asterisk | .slash => 20
  | .plus | .minus => 10
  | .less | .greater => 5
  | .equals => 3
  | _ => -1

/-- `Parser::tokenToBinaryOp`. -/
def tokenToBinaryOp : TokenType → PM BinaryOperationType
  | .plus => pok .add
  | .minus => pok .subtract
  | .asterisk => pok .multiply
  | .slash => pok .divide
  | .less => pok .less
  | .greater => pok .more
  | .equals => pok .equal
  | _ => fun _ => .error .invalidBinaryOperator

/-- The `isTerminator` closure of `Parser::parseBinaryOpRHS`. -/
def isTerminatorCheck (terminator : TokenType) : PM Bool := fun st =>
  pbind (pmPeek 0 st) fun t st =>
  if t.type = terminator then .ok (true, st)
  else if terminator = .comma && t.type = .rparen then .ok (true, st)
  else .ok (false, st)

/-- The `while (peekT(Dollar))` counting loops of `Parser::parseValue`. -/
def prefixDollars : Nat → PM Nat :=
  Nat.rec (fun _ => .error .outOfFuel) (fun _fuel ih st =>
    pbind (pmPeekT .dollar 0 st) fun b st =>
    if b then
      pbind (pmConsume st) fun _ st =>
      pbind (ih st) fun n st =>
      .ok (n + 1, st)
    else .ok (0, st))

/-- The `for (i < drefs)` dereference-application loops of
`Parser::parseValue`: each step requires a pointer type and wraps the
expression in a `Dref`. -/
def applyDrefs : Nat → ExpressionNode → TypeNode →
    PM (ExpressionNode × TypeNode) :=
  Nat.rec (fun target derived => pok (target, derived))
    (fun _n ih target derived =>
      match derived with
      | .pointer tgt =>
          ih (.dref target tgt tgt.isSignedT) tgt
      | _ => fun _ => .error .derefNonPointer)

/-- The "member function call without an instance" semantic check that
follows a successful call lookup. -/
def checkMemberCallInstance (name : String) : PM Unit := fun st =>
  if st.currentClassName ≠ "" && name.data.contains '_' then
    if name.startsWith (st.currentClassName ++ "_") then
      .error (.memberCallWithoutInstance name)
    else .ok ((), st)
  else .ok ((), st)

/-- The mutually recursive expression-parsing member functions of
`Parser`, bundled per recursion depth.  The group is embedded as one
`Nat.rec` whose value at depth `fuel + 1` holds each function's body,
with every in-group call (each strictly one level down) taken from the
bundle at depth `fuel`; the bundle at depth `0` is the exhausted-budget
error for every member.  This spelling lets the kernel unfold concrete
runs cheaply; the bodies read exactly like the direct recursive form. -/
structure ExprParseFns where
  parseValue : PM (ExpressionNode × TypeNode)
  postfixLoop : ExpressionNode → TypeNode → PM (ExpressionNode × TypeNode)
  parseArgsLoop : List ExpressionNode → PM (List ExpressionNode)
  parsePrimaryExpression : TokenType → PM ExpressionNode
  parseBinaryOpRHS : Int → ExpressionNode → TokenType → PM ExpressionNode
  binRhsStep : Int → ExpressionNode → TokenType → TokenType →
    PM ExpressionNode
  binRhsClimb : Int → ExpressionNode → TokenType → TokenType →
    PM ExpressionNode
  parseExpression : TokenType → PM ExpressionNode

def exprParseZero : ExprParseFns :=
  { parseValue := fun _ => .error .outOfFuel
    postfixLoop := fun _ _ _ => .error .outOfFuel
    parseArgsLoop := fun _ _ => .error .outOfFuel
    parsePrimaryExpression := fun _ _ => .error .outOfFuel
    parseBinaryOpRHS := fun _ _ _ _ => .error .outOfFuel
    binRhsStep := fun _ _ _ _ _ => .error .outOfFuel
    binRhsClimb := fun _ _ _ _ _ => .error .outOfFuel
    parseExpression := fun _ _ => .error .outOfFuel }

/-- One depth level of the expression-parser group; `prev` is the group
one recursion level down. -/
def exprParseStep (fuel : Nat) (prev : ExprParseFns) : ExprParseFns where
  /- `Parser::parseValue`: prefix `$`s and `&`, an identifier resolved as
  a local or as an implicit-`this` member, then the postfix loop. -/
  parseValue := fun st =>
      pbind (prefixDollars (fuel + 1) st) fun drefs st =>
      pbind (pmPeekT .ampersand 0 st) fun amp st =>
      pbind
        (if amp then
          pbind (pmConsume st) fun _ st => .ok (true, st)
        else .ok (false, st)) fun addressOfB st =>
      pbind (expect .identifier st) fun nameTok st =>
      pbind (validateIdentifier nameTok.src st) fun _ st =>
      let name := nameTok.src
      let k : ExpressionNode → TypeNode → PM (ExpressionNode × TypeNode) :=
        fun target derivedType st =>
          pbind (applyDrefs drefs target derivedType st) fun r st =>
          pbind (prev.postfixLoop r.1 r.2 st) fun r st =>
          .ok ((if addressOfB then ExpressionNode.addressOf r.1 r.2.isSignedT
                else r.1, r.2), st)
      pbind (lookupVariableType name st) fun vt st =>
      match vt with
      | some dt => k (ExpressionNode.varref name dt.isSignedT) dt st
      | none =>
          pbind (lookupVariableType "this" st) fun thisT st =>
          match thisT with
          | some (.pointer (.classref clsName)) =>
              pbind (getClassDecl clsName st) fun decl st =>
              (match decl.lookupMemberType name with
              | some ft =>
                  let thisSgn := (TypeNode.pointer (.classref clsName)).isSignedT
                  let thisRef := ExpressionNode.varref "this" thisSgn
                  let tgt := TypeNode.classref clsName
                  let derefThis := ExpressionNode.dref thisRef tgt tgt.isSignedT
                  k (ExpressionNode.structAccess derefThis name decl.name
                      ft.isSignedT clsName) ft st
              | none => .error (.undefinedVariable name))
          | _ => .error (.undefinedVariable name)
  /- The postfix `while (true)` loop of `Parser::parseValue`: `.field`,
  `.method(args)`, `[index]`, and member-interior `$`s, with
  auto-dereference of one pointer level before `.`. -/
  postfixLoop := fun target derivedType st =>
      pbind (pmPeekT .period 0 st) fun isPeriod st =>
      if isPeriod then
        pbind (pmConsume st) fun _ st =>
        let s :=
          match derivedType with
          | .classref n => some (n, target, derivedType)
          | .pointer (.classref n) =>
              some (n, ExpressionNode.dref target (.classref n)
                      (TypeNode.classref n).isSignedT,
                    TypeNode.classref n)
          | _ => none
        match s with
        | none => .error .memberOfNonStruct
        | some (clsName, target, derivedType) =>
            pbind (prefixDollars (fuel + 1) st) fun memDrefs st =>
            pbind (expect .identifier st) fun fieldTok st =>
            pbind (validateIdentifier fieldTok.src st) fun _ st =>
            pbind (pmPeekT .lparen 0 st) fun isCall st =>
            if isCall then
              pbind (getClassDecl clsName st) fun decl st =>
              let methodName := decl.name ++ "_" ++ fieldTok.src
              pbind (pmConsume st) fun _ st =>
              let thisArg := ExpressionNode.addressOf target derivedType.isSignedT
              pbind (prev.parseArgsLoop [thisArg] st) fun args st =>
              pbind (pmConsume st) fun _ st =>
              pbind (lookupFunctionReturnType methodName st) fun frt st =>
              match frt with
              | none => .error (.undefinedFunction methodName)
              | some none => .error .nullDeref
              | some (some rt) =>
                  .ok ((ExpressionNode.call methodName args rt.isSignedT, rt), st)
            else
              pbind (getClassDecl clsName st) fun decl st =>
              match decl.lookupMemberType fieldTok.src with
              | none => .error (.noSuchMember clsName fieldTok.src)
              | some ft =>
                  let target := ExpressionNode.structAccess target fieldTok.src
                      clsName ft.isSignedT clsName
                  pbind (applyDrefs memDrefs target ft st) fun r st =>
                  prev.postfixLoop r.1 r.2 st
      else
        pbind (pmPeekT .lbracket 0 st) fun isBracket st =>
        if isBracket then
          pbind (prefixDollars (fuel + 1) st) fun memDrefs st =>
          pbind (pmConsume st) fun _ st =>
          match derivedType with
          | .array elemT len =>
              pbind (prev.parseExpression .rbracket st) fun idx st =>
              pbind (expect .rbracket st) fun _ st =>
              let target := ExpressionNode.arrayAccess target idx
                  (TypeNode.array elemT len).isSignedT (.array elemT len)
              pbind (applyDrefs memDrefs target elemT st) fun r st =>
              prev.postfixLoop r.1 r.2 st
          | .pointer tgt =>
              pbind (prev.parseExpression .rbracket st) fun idx st =>
              pbind (expect .rbracket st) fun _ st =>
              let target := ExpressionNode.ptrIndexAccess target idx
                  (TypeNode.pointer tgt).isSignedT (.pointer tgt)
              pbind (applyDrefs memDrefs target tgt st) fun r st =>
              prev.postfixLoop r.1 r.2 st
          | _ => .error .subscriptNonArray
        else .ok ((target, derivedType), st)
  /- The call-argument loop `while (peek != RParen) { parseExpression(Comma);
  if (peek == Comma) consume; }` shared by every call site. -/
  parseArgsLoop := fun acc st =>
      pbind (pmPeek 0 st) fun t st =>
      if t.type = .rparen then .ok (acc, st)
      else
        pbind (prev.parseExpression .comma st) fun arg st =>
        pbind (pmPeek 0 st) fun t2 st =>
        if t2.type = .comma then
          pbind (pmConsume st) fun _ st =>
          prev.parseArgsLoop (acc ++ [arg]) st
        else prev.parseArgsLoop (acc ++ [arg]) st
  /- `Parser::parsePrimaryExpression`. -/
  parsePrimaryExpression := fun terminator st =>
      pbind (pmPeek 0 st) fun t st =>
      match t.type with
      | .intLit =>
          pbind (expect .intLit st) fun tok st =>
          .ok (.intLit (stoiC tok.src (hexBase tok.src)), st)
      | .stringLit =>
          pbind (expect .stringLit st) fun tok st =>
          .ok (.stringLit tok.src, st)
      | .floatLit =>
          pbind (expect .floatLit st) fun tok st =>
          .ok (.floatLit false tok.src, st)
      | .minus =>
          pbind (pmConsume st) fun _ st =>
          pbind (pmPeekT .floatLit 0 st) fun isF st =>
          if isF then
            pbind (expect .floatLit st) fun tok st =>
            .ok (.floatLit true tok.src, st)
          else
            pbind (expect .intLit st) fun tok st =>
            .ok (.intLit (0 - stoiC tok.src (hexBase tok.src)), st)
      | .ampersand | .dollar | .identifier =>
          pbind (pmPeekT .lparen 1 st) fun lp st =>
          if lp then
            pbind (expect .identifier st) fun nameTok st =>
            pbind (validateIdentifier nameTok.src st) fun _ st =>
            let name := nameTok.src
            pbind (expect .lparen st) fun _ st =>
            pbind (prev.parseArgsLoop [] st) fun args st =>
            pbind (pmConsume st) fun _ st =>
            pbind (lookupFunctionReturnType name st) fun frt st =>
            match frt with
            | none => .error (.undefinedFunction name)
            | some rt =>
                pbind (checkMemberCallInstance name st) fun _ st =>
                match rt with
                | none => .error .nullDeref
                | some rt' => .ok (.call name args rt'.isSignedT, st)
          else
            pbind (prev.parseValue st) fun r st =>
            .ok (r.1, st)
      | .lparen =>
          pbind (expect .lparen st) fun _ st =>
          pbind (prev.parseExpression .rparen st) fun e st =>
          pbind (expect .rparen st) fun _ st =>
          .ok (e, st)
      | _ => .error .unexpectedTokenInExpression
  /- `Parser::parseBinaryOpRHS` (the `while` loop head: terminator check
  and the `=`-is-not-an-expression diagnostic). -/
  parseBinaryOpRHS := fun exprPrec lhs terminator st =>
      pbind (isTerminatorCheck terminator st) fun isTerm st =>
      if isTerm then .ok (lhs, st)
      else
        pbind (pmPeek 0 st) fun t st =>
        let tokType := t.type
        if tokType = .equals then
          pbind (pmPeekT .equals 1 st) fun e2 st =>
          if e2 then prev.binRhsStep exprPrec lhs terminator tokType st
          else .error .assignmentInExpression
        else prev.binRhsStep exprPrec lhs terminator tokType st
  /- The body of one `parseBinaryOpRHS` iteration after the assignment
  check: precedence test, operator consumption (two tokens for `==`),
  right-hand parse, the conditional higher-precedence recursion, the
  signedness check, and the `BinaryOperation` construction. -/
  binRhsStep := fun exprPrec lhs terminator tokType st =>
      let tokPrec := getOperatorPrecedence tokType
      if tokPrec < exprPrec then .ok (lhs, st)
      else
        pbind
          (if tokType = .equals then
            pbind (pmConsume st) fun _ st =>
            pbind (pmConsume st) fun _ st => .ok ((), st)
          else
            pbind (pmConsume st) fun _ st => .ok ((), st)) fun _ st =>
        pbind (prev.parsePrimaryExpression terminator st) fun rhs st =>
        pbind (pmPeek 0 st) fun nextTok st =>
        let nextTokType := nextTok.type
        pbind (isTerminatorCheck terminator st) fun isTerm2 st =>
        pbind
          (if isTerm2 then .ok (rhs, st)
          else
            if nextTokType = .equals then
              pbind (pmPeekT .equals 1 st) fun e2 st =>
              if e2 then prev.binRhsClimb tokPrec rhs terminator nextTokType st
              else .ok (rhs, st)
            else prev.binRhsClimb tokPrec rhs terminator nextTokType st)
          fun rhs st =>
        if lhs.isSignedE ≠ rhs.isSignedE then .error .signednessMismatch
        else
          pbind (tokenToBinaryOp tokType st) fun op st =>
          prev.parseBinaryOpRHS exprPrec (.binop op lhs rhs lhs.isSignedE)
            terminator st
  /- The `if (nextPrec > tokPrec) rhs = parseBinaryOpRHS(tokPrec + 1, rhs)`
  step. -/
  binRhsClimb := fun tokPrec rhs terminator nextTokType st =>
      let nextPrec := getOperatorPrecedence nextTokType
      if nextPrec > tokPrec then
        prev.parseBinaryOpRHS (tokPrec + 1) rhs terminator st
      else .ok (rhs, st)
  /- `Parser::parseExpression`. -/
  parseExpression := fun terminator st =>
      pbind (prev.parsePrimaryExpression terminator st) fun lhs st =>
      prev.parseBinaryOpRHS 0 lhs terminator st

def exprParseAt : Nat → ExprParseFns :=
  Nat.rec exprParseZero exprParseStep

/-- `Parser::parseValue` at a recursion budget. -/
def parseValue (fuel : Nat) : PM (ExpressionNode × TypeNode) :=
  (exprParseAt fuel).parseValue

/-- The postfix loop of `Parser::parseValue` at a recursion budget. -/
def postfixLoop (fuel : Nat) (target : ExpressionNode) (derivedType : TypeNode) :
    PM (ExpressionNode × TypeNode) :=
  (exprParseAt fuel).postfixLoop target derivedType

/-- The call-argument loop at a recursion budget. -/
def parseArgsLoop (fuel : Nat) (acc : List ExpressionNode) :
    PM (List ExpressionNode) :=
  (exprParseAt fuel).parseArgsLoop acc

/-- `Parser::parsePrimaryExpression` at a recursion budget. -/
def parsePrimaryExpression (fuel : Nat) (terminator : TokenType) :
    PM ExpressionNode :=
  (exprParseAt fuel).parsePrimaryExpression terminator

/-- `Parser::parseBinaryOpRHS` at a recursion budget. -/
def parseBinaryOpRHS (fuel : Nat) (exprPrec : Int) (lhs : ExpressionNode)
    (terminator : TokenType) : PM ExpressionNode :=
  (exprParseAt fuel).parseBinaryOpRHS exprPrec lhs terminator

/-- `Parser::parseExpression` at a recursion budget. -/
def parseExpression (fuel : Nat) (terminator : TokenType) : PM ExpressionNode :=
  (exprParseAt fuel).parseExpression terminator

/-! ### Statement parsing (`parser/statement.cpp`) -/

/-- `dynamic_cast<FunctionCall*>` on a parsed l-value. -/
def isFunctionCallNode : ExpressionNode → Bool
  | .call _ _ _ => true
  | _ => false

/-- The mutually recursive statement-parsing member functions of
`Parser`, bundled per recursion depth exactly like `ExprParseFns`. -/
structure StmtParseFns where
  parseStatement : PM StatementNode
  stmtsUntilElseOrRBrace : List StatementNode → PM (List StatementNode)
  stmtsUntilRBrace : List StatementNode → PM (List StatementNode)

def stmtParseZero : StmtParseFns :=
  { parseStatement := fun _ => .error .outOfFuel
    stmtsUntilElseOrRBrace := fun _ _ => .error .outOfFuel
    stmtsUntilRBrace := fun _ _ => .error .outOfFuel }

/-- One depth level of the statement-parser group. -/
def stmtParseStep (fuel : Nat) (prev : StmtParseFns) : StmtParseFns where
  /- `Parser::parseStatement`. -/
  parseStatement := fun st =>
      pbind (pmPeek 0 st) fun t st =>
      match t.type with
      | .returnKw =>
          pbind (pmConsume st) fun _ st =>
          pbind (pmPeekT .semi 0 st) fun isSemi st =>
          if isSemi then
            pbind (pmConsume st) fun _ st =>
            .ok (.ret none, st)
          else
            pbind (parseExpression (fuel + 1) .semi st) fun v st =>
            pbind (expect .semi st) fun _ st =>
            .ok (.ret (some v), st)
      | .ifKw =>
          pbind (pmConsume st) fun _ st =>
          pbind (expect .lparen st) fun _ st =>
          pbind (parseExpression (fuel + 1) .rparen st) fun cond st =>
          pbind (expect .rparen st) fun _ st =>
          pbind (expect .lbrace st) fun _ st =>
          pbind (prev.stmtsUntilElseOrRBrace [] st) fun trueBody st =>
          pbind (expect .rbrace st) fun _ st =>
          pbind (pmPeekT .elseKw 0 st) fun isElse st =>
          if isElse then
            pbind (pmConsume st) fun _ st =>
            pbind (prev.stmtsUntilRBrace [] st) fun falseBody st =>
            pbind (expect .rbrace st) fun _ st =>
            .ok (.ifStmt cond trueBody (some falseBody), st)
          else .ok (.ifStmt cond trueBody none, st)
      | .whileKw =>
          pbind (pmConsume st) fun _ st =>
          pbind (expect .lparen st) fun _ st =>
          pbind (parseExpression (fuel + 1) .rparen st) fun cond st =>
          pbind (expect .rparen st) fun _ st =>
          pbind (expect .lbrace st) fun _ st =>
          pbind (prev.stmtsUntilRBrace [] st) fun body st =>
          pbind (expect .rbrace st) fun _ st =>
          .ok (.whileStmt cond body, st)
      | _ =>
          pbind (parseType (fuel + 1) st) fun ty? st =>
          match ty? with
          | some ty =>
              pbind (expect .identifier st) fun nameTok st =>
              pbind (validateIdentifier nameTok.src st) fun _ st =>
              let name := nameTok.src
              pbind (pmPeekT .equals 0 st) fun isEq st =>
              pbind
                (if isEq then
                  pbind (pmConsume st) fun _ st =>
                  pbind (parseExpression (fuel + 1) .semi st) fun v st =>
                  .ok (some v, st)
                else .ok (none, st)) fun initV st =>
              pbind (expect .semi st) fun _ st =>
              pbind (indexVariableType name (some ty) st) fun _ st =>
              .ok (.varDecl ty name initV, st)
          | none =>
              pbind (pmPeekT .identifier 0 st) fun isId st =>
              pbind (pmPeekT .lparen 1 st) fun isLp st =>
              if isId && isLp then
                pbind (expect .identifier st) fun nameTok st =>
                pbind (validateIdentifier nameTok.src st) fun _ st =>
                let name := nameTok.src
                pbind (expect .lparen st) fun _ st =>
                pbind (parseArgsLoop (fuel + 1) [] st) fun args st =>
                pbind (pmConsume st) fun _ st =>
                pbind (expect .semi st) fun _ st =>
                pbind (lookupFunctionReturnType name st) fun frt st =>
                match frt with
                | none => .error (.undefinedFunction name)
                | some rt =>
                    pbind (checkMemberCallInstance name st) fun _ st =>
                    match rt with
                    | none => .error .nullDeref
                    | some rt' =>
                        .ok (.exprStmt (.call name args rt'.isSignedT), st)
              else
                pbind (parseValue (fuel + 1) st) fun r st =>
                if isFunctionCallNode r.1 then
                  pbind (expect .semi st) fun _ st =>
                  .ok (.exprStmt r.1, st)
                else
                  pbind (expect .equals st) fun _ st =>
                  pbind (parseExpression (fuel + 1) .semi st) fun v st =>
                  pbind (expect .semi st) fun _ st =>
                  .ok (.assign r.1 v, st)

  /- The statement loop of an `if` arm:
  `while (!peekT(Else) && !peekT(RBrace)) parseStatement();`. -/
  stmtsUntilElseOrRBrace := fun acc st =>
      pbind (pmPeekT .elseKw 0 st) fun isElse st =>
      pbind (pmPeekT .rbrace 0 st) fun isRb st =>
      if !isElse && !isRb then
        pbind (prev.parseStatement st) fun s st =>
        prev.stmtsUntilElseOrRBrace (acc ++ [s]) st
      else .ok (acc, st)
  /- The statement loop `while (!peekT(RBrace)) parseStatement();` used by
  `else` arms, `while` bodies and function bodies. -/
  stmtsUntilRBrace := fun acc st =>
      pbind (pmPeekT .rbrace 0 st) fun isRb st =>
      if !isRb then
        pbind (prev.parseStatement st) fun s st =>
        prev.stmtsUntilRBrace (acc ++ [s]) st
      else .ok (acc, st)

def stmtParseAt : Nat → StmtParseFns :=
  Nat.rec stmtParseZero stmtParseStep

/-- `Parser::parseStatement` at a recursion budget. -/
def parseStatement (fuel : Nat) : PM StatementNode :=
  (stmtParseAt fuel).parseStatement

/-- The if-arm statement loop at a recursion budget. -/
def stmtsUntilElseOrRBrace (fuel : Nat) (acc : List StatementNode) :
    PM (List StatementNode) :=
  (stmtParseAt fuel).stmtsUntilElseOrRBrace acc

/-- The brace-delimited statement loop at a recursion budget. -/
def stmtsUntilRBrace (fuel : Nat) (acc : List StatementNode) :
    PM (List StatementNode) :=
  (stmtParseAt fuel).stmtsUntilRBrace acc

/-! ### Function parsing (`Parser::parseFunction`) -/

/-- The parameter loop of `Parser::parseFunction`. -/
def parseParamsLoop : Nat → List (String × Option TypeNode) →
    PM (List (String × Option TypeNode)) :=
  Nat.rec (fun _ _ => .error .outOfFuel) (fun fuel ih acc st =>
    pbind (pmPeek 0 st) fun t st =>
    if t.type = .rparen then .ok (acc, st)
    else
      pbind (parseType (fuel + 1) st) fun paramType st =>
      pbind (expect .identifier st) fun tok st =>
      pbind (validateIdentifier tok.src st) fun _ st =>
      let acc := acc ++ [(tok.src, paramType)]
      pbind (pmPeekT .comma 0 st) fun isComma st =>
      if isComma then
        pbind (pmConsume st) fun _ st =>
        ih acc st
      else ih acc st)

/-- The parameter-indexing loop at function-body entry:
`for (param : params) indexVariableType(param.first, param.second);`. -/
def indexParamsLoop : List (String × Option TypeNode) → PM Unit :=
  List.rec (pok ()) (fun p _rest ih st =>
    pbind (indexVariableType p.1 p.2 st) fun _ st =>
    ih st)

/-- `Parser::parseFunction`: return type, name (mangled to
`ClassName_NAME` inside a class), parameters (with the implicit `this`
prepended when the class is registered in the type registry), and an
optional brace-delimited body. -/
def parseFunction (fuel : Nat) : PM FunctionNode := fun st =>
  let isDetached := st.currentClassName = ""
  let currentClassName := st.currentClassName
  pbind (parseType fuel st) fun type? st =>
  pbind (expect .identifier st) fun nameTok st =>
  pbind (validateIdentifier nameTok.src st) fun _ st =>
  let baseName := nameTok.src
  let name :=
    if isDetached then baseName
    else if currentClassName ≠ "" then
      currentClassName ++ "_" ++ baseName
    else baseName
  pbind (expect .lparen st) fun _ st =>
  pbind
    (if !isDetached && currentClassName ≠ "" then
      pbind (getTypeNode currentClassName st) fun thisType st =>
      match thisType with
      | some tt => .ok ([("this", some (TypeNode.pointer tt))], st)
      | none => .ok (([] : List (String × Option TypeNode)), st)
    else .ok ([], st)) fun params st =>
  pbind (parseParamsLoop fuel params st) fun params st =>
  pbind (expect .rparen st) fun _ st =>
  pbind (pmConsume st) fun tok st =>
  pbind
    (if tok.type = .lbrace then
      pbind (pushScope st) fun _ st =>
      pbind (indexParamsLoop params st) fun _ st =>
      pbind (stmtsUntilRBrace fuel [] st) fun stmts st =>
      pbind (expect .rbrace st) fun _ st =>
      pbind (popScope st) fun _ st =>
      .ok (some stmts, st)
    else .ok (none, st)) fun body st =>
  .ok ({ name := name, retType := type?, isPublic := true, params := params,
         body := body, isDetached := isDetached }, st)

/-! ### Class and file parsing (`Parser::parseClass`, `Parser::parseFunctions`,
`Parser::parseFile`) -/

/-- The parameter-skipping loop of the first class pass. -/
def skipParamsLoop : Nat → PM Unit :=
  Nat.rec (fun _ => .error .outOfFuel) (fun fuel ih st =>
    pbind (pmPeek 0 st) fun t st =>
    if t.type = .rparen then .ok ((), st)
    else
      pbind
        (if t.type ≠ .rparen && t.type ≠ .comma then
          pbind (parseType (fuel + 1) st) fun _ st =>
          pbind (expect .identifier st) fun tok st =>
          validateIdentifier tok.src st
        else .ok ((), st)) fun _ st =>
      pbind (pmPeekT .comma 0 st) fun isComma st =>
      if isComma then
        pbind (pmConsume st) fun _ st =>
        ih st
      else ih st)

/-- The balanced-brace body skip of the first class pass. -/
def skipBracesLoop : Nat → Nat → PM Unit :=
  Nat.rec (fun _ _ => .error .outOfFuel) (fun _fuel ih depth st =>
    if depth > 0 then
      pbind (pmPeek 0 st) fun t st =>
      if t.type = .endOfFile then .ok ((), st)
      else
        let depth :=
          if t.type = .lbrace then depth + 1
          else if t.type = .rbrace then depth - 1
          else depth
        pbind (pmConsume st) fun _ st =>
        ih depth st
    else .ok ((), st))

/-- The first pass over a class body: collect `type IDENT ;` members into
a fresh `std::map` (`members[token.src] = type`), skipping functions
(parameter list plus balanced braces or `;`). -/
def classFirstPass : Nat → List (String × Option TypeNode) →
    PM (List (String × Option TypeNode)) :=
  Nat.rec (fun _ _ => .error .outOfFuel) (fun fuel ih members st =>
    pbind (pmPeek 0 st) fun t st =>
    if t.type = .endOfFile || t.type = .rbrace then .ok (members, st)
    else
      pbind (parseType (fuel + 1) st) fun ty? st =>
      pbind (expect .identifier st) fun tok st =>
      pbind (validateIdentifier tok.src st) fun _ st =>
      pbind (pmPeekT .lparen 0 st) fun isLp st =>
      if !isLp then
        pbind (expect .semi st) fun _ st =>
        ih (smapAssign tok.src ty? members) st
      else
        pbind (expect .lparen st) fun _ st =>
        pbind (skipParamsLoop (fuel + 1) st) fun _ st =>
        pbind (expect .rparen st) fun _ st =>
        pbind (pmPeekT .lbrace 0 st) fun isLb st =>
        pbind
          (if isLb then
            pbind (pmConsume st) fun _ st =>
            skipBracesLoop (fuel + 1) 1 st
          else
            pbind (expect .semi st) fun _ st =>
            .ok ((), st)) fun _ st =>
        ih members st)

/-- `Parser::parseFunctions` (the second class pass): parses only the
functions of the class body, skipping member declarations; a leading
`typedef` token is consumed and falls through (the `case` has no
`break`). -/
def parseFunctionsLoop : Nat → PM Unit :=
  Nat.rec (fun _ => .error .outOfFuel) (fun fuel ih st =>
    pbind (pmPeek 0 st) fun t st =>
    if t.type = .endOfFile || t.type = .rbrace then .ok ((), st)
    else
      pbind
        (if t.type = .typedefKw then
          pbind (pmConsume st) fun _ st => .ok ((), st)
        else .ok ((), st)) fun _ st =>
      pbind (getNextTypeLength (fuel + 1) st) fun len st =>
      pbind (pmPeekT .lparen (len + 1) st) fun isFn st =>
      if isFn then
        pbind (parseFunction (fuel + 1) st) fun fn st =>
        let st := { st with functions := st.functions ++ [fn] }
        ih st
      else
        pbind (parseType (fuel + 1) st) fun _ st =>
        pbind (expect .identifier st) fun _ st =>
        pbind (expect .semi st) fun _ st =>
        ih st)

/-- `Parser::parseClass`: two passes over the class body bracketed by a
lexer-state save/restore.  After the first pass, a non-empty member map
either re-opens the existing declaration (`addMembers`) or creates and
registers a new one. -/
def parseClass (fuel : Nat) : PM Unit := fun st =>
  let savedState := st.lexer.saveState
  pbind (classFirstPass fuel [] st) fun members st =>
  pbind
    (if st.currentClassName ≠ "" && members ≠ [] then
      pbind (getTypeNode st.currentClassName st) fun existingType st =>
      match existingType with
      | some et =>
          (match dynCastClassRef et with
          | some declName =>
              pbind (getClassDecl declName st) fun decl st =>
              let decl := decl.addMembers members
              .ok ((), { st with
                classTable := smapAssign declName decl st.classTable })
          | none => .ok ((), st))
      | none =>
          let classNode : ClassNode :=
            { name := st.currentClassName, members := members }
          let st := { st with
            classes := st.classes ++ [classNode.name],
            classTable := smapAssign classNode.name classNode st.classTable }
          registerStructType classNode.name classNode.name st
    else .ok ((), st)) fun _ st =>
  let st := { st with lexer := st.lexer.restoreState savedState }
  parseFunctionsLoop fuel st

/-- `Parser::parseFile`: imports are skipped token-wise (they were
handled by `processImports`), `typedef`s update the registry, `class`
declarations run the two-pass class parser, anything else is a detached
function.  The `intdef` keyword of a newer snapshot does not exist in
this lexer's token set, so it has no case here. -/
def parseFileLoop : Nat → PM Unit :=
  Nat.rec (fun _ => .error .outOfFuel) (fun fuel ih st =>
    pbind (pmPeek 0 st) fun t st =>
    if t.type = .endOfFile then .ok ((), st)
    else
      pbind
        (match t.type with
        | .importKw =>
            pbind (pmConsume st) fun _ st =>
            pbind (expect .stringLit st) fun _ st =>
            pbind (expect .semi st) fun _ st =>
            .ok ((), st)
        | .typedefKw =>
            pbind (expect .typedefKw st) fun _ st =>
            pbind (expect .identifier st) fun aliasTok st =>
            pbind (expect .identifier st) fun targetTok st =>
            pbind (insertTypeDef aliasTok.src targetTok.src st) fun _ st =>
            pbind (expect .semi st) fun _ st =>
            .ok ((), st)
        | .classKw =>
            pbind (pmConsume st) fun _ st =>
            pbind (expect .identifier st) fun classNameTok st =>
            pbind (validateIdentifier classNameTok.src st) fun _ st =>
            let st := { st with currentClassName := classNameTok.src }
            pbind (expect .lbrace st) fun _ st =>
            pbind (parseClass (fuel + 1) st) fun _ st =>
            pbind (expect .rbrace st) fun _ st =>
            .ok ((), { st with currentClassName := "" })
        | _ =>
            pbind (parseFunction (fuel + 1) st) fun fn st =>
            .ok ((), { st with functions := st.functions ++ [fn] }))
        fun _ st =>
      ih st)

/-- The primitive-type registrations done by the `Parser` constructor, in
order. -/
def primitiveSeed : List (String × TypeNode) :=
  [("bool", .primitive .bool false),
   ("void", .primitive .void false),
   ("char", .primitive .char true), ("uchar", .primitive .char false),
   ("short", .primitive .short true), ("ushort", .primitive .short false),
   ("int", .primitive .int true), ("uint", .primitive .int false),
   ("long", .primitive .long true), ("ulong", .primitive .long false),
   ("half", .primitive .half true), ("float", .primitive .float true),
   ("double", .primitive .double true), ("quad", .primitive .quad true)]

def initialTypes : List (String × TypeNode) :=
  primitiveSeed.foldl (fun m p => smapInsert p.1 p.2 m) []

/-- A freshly constructed parser over one source string (no imports). -/
def initParserState (src : String) : ParserState :=
  { lexer := Lexer.ofString src, currentClassName := "",
    functions := [], classes := [], classTable := [],
    scopes := [], types := initialTypes }

/-- Runs `Parser::parseFile` on one source string. -/
def runParseFile (fuel : Nat) (src : String) : Except PErr ParserState :=
  match parseFileLoop fuel (initParserState src) with
  | .error e => .error e
  | .ok (_, st) => .ok st

/-! ## The IR builder (`nodes/context.hpp`, `codegen/*.cpp`)

LLVM values and instructions are embedded structurally: a basic block is
the list of instructions inserted into it, in order; `BasicBlock::Create`
appends a fresh empty block to the function's block list;
`BasicBlock::getTerminator()` returns the block's **last** instruction
when that instruction is a terminator, and null otherwise.  A `Value`
carries its LLVM type and a provenance tag mirroring the `dyn_cast`s the
code performs on it (`AllocaInst` with its allocated type,
`GetElementPtrInst` with its result element type, anything else).
Constants (`ConstantInt`, `ConstantFP`, global strings and the constant-
folded GEP into them) insert no instruction.  Fatal `reportError` calls
become `CGErr` values; `outOfFuel` is a model artifact as in the
parser. -/

inductive LTy where
  | voidT | intT (w : Nat) | halfT | floatT | doubleT | fp128T | ptrT
  | structT (name : String) | arrayT (elem : LTy) (len : Int)
deriving DecidableEq, Repr

def LTy.isIntegerTy : LTy → Bool
  | .intT _ => true
  | _ => false

def LTy.isPointerTy : LTy → Bool
  | .ptrT => true
  | _ => false

def LTy.isVoidTy : LTy → Bool
  | .voidT => true
  | _ => false

def LTy.intWidth : LTy → Nat
  | .intT w => w
  | _ => 0

inductive Instr where
  | allocaI (ty : LTy) (id : Nat)
  | storeI (val ptr : Nat)
  | loadI (ty : LTy) (ptr id : Nat)
  | gepI (baseTy : LTy) (id : Nat)
  | structGepI (structName : String) (idx : Nat) (id : Nat)
  | addI (id : Nat) | subI (id : Nat) | mulI (id : Nat) | udivI (id : Nat)
  | icmpUltI (id : Nat) | icmpUgtI (id : Nat) | icmpEqI (id : Nat)
  | sextI (id : Nat) | zextI (id : Nat) | truncI (id : Nat) | negI (id : Nat)
  | callI (callee : String) (id : Nat)
  | retI (v : Nat) | retVoidI | brI (target : Nat) | condBrI (c tBlk fBlk : Nat)
deriving DecidableEq, Repr

def Instr.isTerminator : Instr → Bool
  | .retI _ | .retVoidI | .brI _ | .condBrI _ _ _ => true
  | _ => false

/-- `BasicBlock::getTerminator()`: the last instruction when it is a
terminator. -/
def blockTerminator (b : List Instr) : Option Instr :=
  match b.getLast? with
  | some i => if i.isTerminator then some i else none
  | none => none

def blockHasTerminator (b : List Instr) : Bool :=
  (blockTerminator b).isSome

/-- Number of terminator instructions in a block. -/
def termCount (b : List Instr) : Nat :=
  (b.filter Instr.isTerminator).length

inductive Prov where
  | allocaP (allocatedType : LTy)
  | gepP (resultElemType : LTy)
  | otherP
deriving DecidableEq, Repr

structure Value where
  id : Nat
  ty : LTy
  prov : Prov
deriving DecidableEq, Repr

inductive CGErr where
  | undefinedVariableCG (name : String)
  | derefNonPointerCG
  | indexNonPointer
  | structTypeExpected
  | arrayTypeExpected
  | indexNotInteger
  | nullType
  | unknownFunction (name : String)
  | arityMismatch (name : String)
  | pointerArith
  | nonIntegerOperands
  | initTypeIncompatible
  | returnTypeMismatch
  | nonVoidReturnsVoid
  | conditionNotInteger
  | noSuchMemberCG (structName memberName : String)
  | memberIndexMissing
  | nullDerefCG
  | internalCG
  | outOfFuelCG
deriving DecidableEq, Repr

/-- The `CodegenContext`: blocks of the function under construction (in
creation order), the builder's insertion block, the codegen scope stack,
the `namedStructs` registry (member names from `declareStruct`, body
types once `setBody` ran), the module's function list, and the current
function's return type (`getCurrentFunctionReturnType`). -/
structure CGCtx where
  blocks : List (List Instr)
  cur : Nat
  cgScopes : List (List (String × (Nat × LTy)))
  namedStructs : List (String × (List String × Option (List LTy)))
  moduleFns : List (String × (LTy × List LTy))
  nextId : Nat
  curFnRet : Option LTy
deriving Repr

/-- Code generation is likewise an explicit state transformer over the
`CodegenContext`. -/
abbrev CG (α : Type) := CGCtx → Except CGErr (α × CGCtx)

def cgbind (m : Except CGErr (α × CGCtx)) (f : α → CG β) :
    Except CGErr (β × CGCtx) :=
  match m with
  | .error e => .error e
  | .ok (a, c) => f a c

def cgok (a : α) : CG α := fun c => .ok (a, c)

def emit (i : Instr) : CG Unit := fun c =>
  .ok ((), { c with blocks := c.blocks.set c.cur ((c.blocks.getD c.cur []) ++ [i]) })

def freshId : CG Nat := fun c => .ok (c.nextId, { c with nextId := c.nextId + 1 })

/-- `BasicBlock::Create(ctx, name, parentFunction)`: appends an empty
block, returning its index. -/
def newBlock : CG Nat := fun c =>
  .ok (c.blocks.length, { c with blocks := c.blocks ++ [[]] })

def setInsertPoint (b : Nat) : CG Unit := fun c => .ok ((), { c with cur := b })

def getInsertBlock : CG (List Instr) := fun c => .ok (c.blocks.getD c.cur [], c)

def cgPushScope : CG Unit := fun c =>
  .ok ((), { c with cgScopes := [] :: c.cgScopes })

def cgPopScope : CG Unit := fun c =>
  .ok ((), { c with cgScopes := match c.cgScopes with | [] => [] | _ :: r => r })

def cgDeclareVariable (name : String) (a : Nat × LTy) : CG Unit := fun c =>
  match c.cgScopes with
  | [] => .error .internalCG
  | top :: rest =>
      .ok ((), { c with cgScopes := smapAssign name a top :: rest })

def cgScopesFind (name : String) :
    List (List (String × (Nat × LTy))) → Option (Nat × LTy)
  | [] => none
  | m :: rest =>
      match smapFind m name with
      | some v => some v
      | none => cgScopesFind name rest

/-- `CodegenContext::lookupVariable`. -/
def cgLookupVariable (name : String) : CG (Option (Nat × LTy)) := fun c =>
  .ok (cgScopesFind name c.cgScopes, c)

/-- `CodegenContext::convertIfNeeded`: integer widening (signed or
unsigned extension per the flag) or truncation towards the target type;
anything else passes through unchanged. -/
def convertIfNeeded (v : Value) (targetType : LTy) (isSigned : Bool) :
    CG Value := fun c =>
  if v.ty = targetType then .ok (v, c)
  else if v.ty.isIntegerTy && targetType.isIntegerTy then
    let vb := v.ty.intWidth
    let tb := targetType.intWidth
    if vb < tb then
      cgbind (freshId c) fun id c =>
      cgbind (emit (if isSigned then .sextI id else .zextI id) c) fun _ c =>
      .ok ({ id := id, ty := targetType, prov := .otherP }, c)
    else if vb > tb then
      cgbind (freshId c) fun id c =>
      cgbind (emit (.truncI id) c) fun _ c =>
      .ok ({ id := id, ty := targetType, prov := .otherP }, c)
    else .ok (v, c)
  else .ok (v, c)

/-! ### Type lowering (`codegen/type.cpp`, `ClassNode::codeGen`) -/

def primLTy : PrimitiveType → LTy
  | .void => .voidT
  | .bool => .intT 1
  | .char => .intT 8
  | .short => .intT 16
  | .int => .intT 32
  | .long => .intT 64
  | .half => .halfT
  | .float => .floatT
  | .double => .doubleT
  | .quad => .fp128T

/-- The mutually recursive type-lowering functions, bundled per
recursion depth exactly like `ExprParseFns`. -/
structure TypeCGFns where
  typeCodeGen : List (String × ClassNode) → TypeNode → CG LTy
  structCodeGen : List (String × ClassNode) → String → CG LTy
  structMembersCodeGen : List (String × ClassNode) →
    List (String × Option TypeNode) → CG (List LTy)

def typeCGZero : TypeCGFns :=
  { typeCodeGen := fun _ _ _ => .error .outOfFuelCG
    structCodeGen := fun _ _ _ => .error .outOfFuelCG
    structMembersCodeGen := fun _ _ _ => .error .outOfFuelCG }

/-- One depth level of the type-lowering group. -/
def typeCGStep (_fuel : Nat) (prev : TypeCGFns) : TypeCGFns where
  /- `TypeNode::codeGen` for each subclass; `ct` is the class table
  holding the shared `ClassNode` declarations. -/
  typeCodeGen := fun ct ty c =>
      match ty with
      | .primitive p _ => .ok (primLTy p, c)
      | .pointer t =>
          cgbind (prev.typeCodeGen ct t c) fun _ c =>
          .ok (.ptrT, c)
      | .array t len =>
          cgbind (prev.typeCodeGen ct t c) fun et c =>
          .ok (.arrayT et len, c)
      | .classref n => prev.structCodeGen ct n c
  /- `ClassNode::codeGen`: returns the cached struct handle when present;
  otherwise creates the named struct, registers it (so recursive
  references resolve), lowers the member types in map order and sets the
  body. -/
  structCodeGen := fun ct name c =>
      match smapFind c.namedStructs name with
      | some _ => .ok (.structT name, c)
      | none =>
          match smapFind ct name with
          | none => .error .internalCG
          | some decl =>
              let memberNames := decl.members.map Prod.fst
              let c := { c with
                  namedStructs := smapInsert name (memberNames, none) c.namedStructs }
              cgbind (prev.structMembersCodeGen ct decl.members c)
                fun memberTys c =>
              let c := { c with
                  namedStructs := smapAssign name (memberNames, some memberTys) c.namedStructs }
              .ok (.structT name, c)
  /- The member-type lowering loop of `ClassNode::codeGen`; a null stored
  member pointer is the `pair.second->codeGen` null dereference. -/
  structMembersCodeGen := fun ct ms c =>
      match ms with
      | [] => .ok ([], c)
      | (_, mty) :: rest =>
          match mty with
          | none => .error .nullDerefCG
          | some t =>
              cgbind (prev.typeCodeGen ct t c) fun lt c =>
              cgbind (prev.structMembersCodeGen ct rest c) fun lts c =>
              .ok (lt :: lts, c)

def typeCGAt : Nat → TypeCGFns :=
  Nat.rec typeCGZero typeCGStep

/-- `TypeNode::codeGen` at a recursion budget. -/
def typeCodeGen (fuel : Nat) (ct : List (String × ClassNode)) (ty : TypeNode) :
    CG LTy :=
  (typeCGAt fuel).typeCodeGen ct ty

/-- `ClassNode::codeGen` at a recursion budget. -/
def structCodeGen (fuel : Nat) (ct : List (String × ClassNode))
    (name : String) : CG LTy :=
  (typeCGAt fuel).structCodeGen ct name

/-! ### Expression lowering (`codegen/expression.cpp`) -/

/-- The operator `switch` of `BinaryOperation::codeGen`, applied to the
lowered left value and the (already converted) right value.  Division is
`CreateUDiv`; the comparisons are `CreateICmpULT`, `CreateICmpUGT`,
`CreateICmpEQ` — the unsigned forms in every case. -/
def binOpSwitch (op : BinaryOperationType) (l r : Value) : CG Value := fun c =>
  match op with
  | .add =>
      if l.ty.isPointerTy then
        if !r.ty.isIntegerTy then .error .pointerArith
        else
          cgbind (freshId c) fun id c =>
          cgbind (emit (.gepI l.ty id) c) fun _ c =>
          .ok ({ id := id, ty := .ptrT, prov := .gepP l.ty }, c)
      else if r.ty.isPointerTy then
        if !l.ty.isIntegerTy then .error .pointerArith
        else
          cgbind (freshId c) fun id c =>
          cgbind (emit (.gepI r.ty id) c) fun _ c =>
          .ok ({ id := id, ty := .ptrT, prov := .gepP r.ty }, c)
      else
        if !l.ty.isIntegerTy || !r.ty.isIntegerTy then .error .nonIntegerOperands
        else
          cgbind (freshId c) fun id c =>
          cgbind (emit (.addI id) c) fun _ c =>
          .ok ({ id := id, ty := l.ty, prov := .otherP }, c)
  | .subtract =>
      if l.ty.isPointerTy then
        if !r.ty.isIntegerTy then .error .pointerArith
        else
          cgbind (freshId c) fun nid c =>
          cgbind (emit (.negI nid) c) fun _ c =>
          cgbind (freshId c) fun id c =>
          cgbind (emit (.gepI l.ty id) c) fun _ c =>
          .ok ({ id := id, ty := .ptrT, prov := .gepP l.ty }, c)
      else
        if !l.ty.isIntegerTy || !r.ty.isIntegerTy then .error .nonIntegerOperands
        else
          cgbind (freshId c) fun id c =>
          cgbind (emit (.subI id) c) fun _ c =>
          .ok ({ id := id, ty := l.ty, prov := .otherP }, c)
  | .multiply =>
      if !l.ty.isIntegerTy || !r.ty.isIntegerTy then .error .nonIntegerOperands
      else
        cgbind (freshId c) fun id c =>
        cgbind (emit (.mulI id) c) fun _ c =>
        .ok ({ id := id, ty := l.ty, prov := .otherP }, c)
  | .divide =>
      if !l.ty.isIntegerTy || !r.ty.isIntegerTy then .error .nonIntegerOperands
      else
        cgbind (freshId c) fun id c =>
        cgbind (emit (.udivI id) c) fun _ c =>
        .ok ({ id := id, ty := l.ty, prov := .otherP }, c)
  | .less =>
      if !l.ty.isIntegerTy || !r.ty.isIntegerTy then .error .nonIntegerOperands
      else
        cgbind (freshId c) fun id c =>
        cgbind (emit (.icmpUltI id) c) fun _ c =>
        .ok ({ id := id, ty := .intT 1, prov := .otherP }, c)
  | .more =>
      if !l.ty.isIntegerTy || !r.ty.isIntegerTy then .error .nonIntegerOperands
      else
        cgbind (freshId c) fun id c =>
        cgbind (emit (.icmpUgtI id) c) fun _ c =>
        .ok ({ id := id, ty := .intT 1, prov := .otherP }, c)
  | .equal =>
      if !l.ty.isIntegerTy || !r.ty.isIntegerTy then .error .nonIntegerOperands
      else
        cgbind (freshId c) fun id c =>
        cgbind (emit (.icmpEqI id) c) fun _ c =>
        .ok ({ id := id, ty := .intT 1, prov := .otherP }, c)

/-- The operand lowering prefix of `BinaryOperation::codeGen`: the right
value is resized towards the left value's type using the node's
signedness flag, before the operator switch. -/
def binOpAfterOperands (op : BinaryOperationType) (l r : Value) (sgn : Bool) :
    CG Value := fun c =>
  cgbind (convertIfNeeded r l.ty sgn c) fun r c =>
  binOpSwitch op l r c

/-- Follows `type_->getDecl()` on a `ClassReferenceNode` embedded as its
class name. -/
def cgGetDecl (ct : List (String × ClassNode)) (name : String) : CG ClassNode :=
  fun c =>
  match smapFind ct name with
  | some d => .ok (d, c)
  | none => .error .internalCG

/-- `type_->target()->codeGen(ctx)` on the stored `PointerTypeNode`: the
stored pointer type always has this shape by construction. -/
def ptrTargetCodeGen (fuel : Nat) (ct : List (String × ClassNode))
    (ty : TypeNode) : CG LTy :=
  match ty with
  | .pointer tgt => typeCodeGen fuel ct tgt
  | _ => fun _ => .error .internalCG

/-- The mutually recursive expression-lowering functions, bundled per
recursion depth exactly like `ExprParseFns`. -/
structure ExprCGFns where
  exprCG : List (String × ClassNode) → ExpressionNode → CG Value
  exprCGL : List (String × ClassNode) → ExpressionNode → CG Value
  argsCG : List (String × ClassNode) → List ExpressionNode → CG (List Value)

def exprCGZero : ExprCGFns :=
  { exprCG := fun _ _ _ => .error .outOfFuelCG
    exprCGL := fun _ _ _ => .error .outOfFuelCG
    argsCG := fun _ _ _ => .error .outOfFuelCG }

/-- One depth level of the expression-lowering group. -/
def exprCGStep (fuel : Nat) (prev : ExprCGFns) : ExprCGFns where
  /- The `codeGen` (r-value) methods of `codegen/expression.cpp`. -/
  exprCG := fun ct e c =>
      match e with
      | .varref name _ =>
          cgbind (cgLookupVariable name c) fun a c =>
          (match a with
          | none => .error (.undefinedVariableCG name)
          | some (aid, aty) =>
              cgbind (freshId c) fun id c =>
              cgbind (emit (.loadI aty aid id) c) fun _ c =>
              .ok ({ id := id, ty := aty, prov := .otherP }, c))
      | .dref target dt _ =>
          cgbind (prev.exprCG ct target c) fun ptr c =>
          if !ptr.ty.isPointerTy then .error .derefNonPointerCG
          else
            cgbind (typeCodeGen (fuel + 1) ct dt c) fun lty c =>
            cgbind (freshId c) fun id c =>
            cgbind (emit (.loadI lty ptr.id id) c) fun _ c =>
            .ok ({ id := id, ty := lty, prov := .otherP }, c)
      | .addressOf target _ => prev.exprCGL ct target c
      | .structAccess structExpr memberName structName sgn tyName =>
          cgbind (prev.exprCGL ct
              (.structAccess structExpr memberName structName sgn tyName) c)
            fun fieldPtr c =>
          cgbind (cgGetDecl ct tyName c) fun decl c =>
          (match decl.lookupMemberType memberName with
          | none => .error (.noSuchMemberCG structName memberName)
          | some mt =>
              cgbind (typeCodeGen (fuel + 1) ct mt c) fun fieldType c =>
              cgbind (freshId c) fun id c =>
              cgbind (emit (.loadI fieldType fieldPtr.id id) c) fun _ c =>
              .ok ({ id := id, ty := fieldType, prov := .otherP }, c))
      | .arrayAccess arrayExpr idxExpr sgn ty =>
          cgbind (prev.exprCGL ct (.arrayAccess arrayExpr idxExpr sgn ty) c)
            fun elemPtr c =>
          cgbind (typeCodeGen (fuel + 1) ct ty c) fun lty c =>
          (match lty with
          | .arrayT elemType _ =>
              cgbind (freshId c) fun id c =>
              cgbind (emit (.loadI elemType elemPtr.id id) c) fun _ c =>
              .ok ({ id := id, ty := elemType, prov := .otherP }, c)
          | _ => .error .arrayTypeExpected)
      | .ptrIndexAccess ptrExpr idxExpr sgn ty =>
          cgbind (prev.exprCGL ct (.ptrIndexAccess ptrExpr idxExpr sgn ty) c)
            fun elemPtr c =>
          cgbind (typeCodeGen (fuel + 1) ct ty c) fun _ c =>
          cgbind (ptrTargetCodeGen (fuel + 1) ct ty c) fun dirType c =>
          cgbind (freshId c) fun id c =>
          cgbind (emit (.loadI dirType elemPtr.id id) c) fun _ c =>
          .ok ({ id := id, ty := dirType, prov := .otherP }, c)
      | .intLit _ =>
          cgbind (freshId c) fun id c =>
          .ok ({ id := id, ty := .intT 32, prov := .otherP }, c)
      | .floatLit _ _ =>
          cgbind (freshId c) fun id c =>
          .ok ({ id := id, ty := .floatT, prov := .otherP }, c)
      | .stringLit _ =>
          cgbind (freshId c) fun id c =>
          .ok ({ id := id, ty := .ptrT, prov := .otherP }, c)
      | .call name args _ =>
          (match c.moduleFns.lookup name with
          | none => .error (.unknownFunction name)
          | some (retTy, paramTys) =>
              if paramTys.length ≠ args.length then .error (.arityMismatch name)
              else
                cgbind (prev.argsCG ct args c) fun _ c =>
                cgbind (freshId c) fun id c =>
                cgbind (emit (.callI name id) c) fun _ c =>
                .ok ({ id := id, ty := retTy, prov := .otherP }, c))
      | .binop op lhs rhs sgn =>
          cgbind (prev.exprCG ct lhs c) fun l c =>
          cgbind (prev.exprCG ct rhs c) fun r c =>
          binOpAfterOperands op l r sgn c

  /- The `codeGenLValue` methods of `codegen/expression.cpp`. -/
  exprCGL := fun ct e c =>
      match e with
      | .varref name _ =>
          cgbind (cgLookupVariable name c) fun a c =>
          (match a with
          | none => .error (.undefinedVariableCG name)
          | some (aid, aty) =>
              .ok ({ id := aid, ty := .ptrT, prov := .allocaP aty }, c))
      | .dref target _ _ =>
          cgbind (prev.exprCGL ct target c) fun ptr c =>
          if !ptr.ty.isPointerTy then .error .derefNonPointerCG
          else
            cgbind (freshId c) fun id c =>
            cgbind (emit (.loadI ptr.ty ptr.id id) c) fun _ c =>
            .ok ({ id := id, ty := ptr.ty, prov := .otherP }, c)
      | .structAccess structExpr memberName _ _ tyName =>
          cgbind (prev.exprCGL ct structExpr c) fun structPtr c =>
          cgbind (typeCodeGen (fuel + 1) ct (.classref tyName) c) fun lty c =>
          (match lty with
          | .structT sname =>
              cgbind (cgGetDecl ct tyName c) fun decl c =>
              (match decl.lookupMemberIndex memberName with
              | none => .error .memberIndexMissing
              | some memberIndex =>
                  match smapFind c.namedStructs sname with
                  | none => .error .internalCG
                  | some (_, none) => .error .internalCG
                  | some (_, some bodyTys) =>
                      match bodyTys.get? memberIndex with
                      | none => .error .internalCG
                      | some fieldLTy =>
                          cgbind (freshId c) fun id c =>
                          cgbind (emit (.structGepI sname memberIndex id) c)
                            fun _ c =>
                          let _ := structPtr
                          .ok ({ id := id, ty := .ptrT,
                                 prov := .gepP fieldLTy }, c))
          | _ => .error .structTypeExpected)
      | .arrayAccess arrayExpr idxExpr _ ty =>
          cgbind (prev.exprCGL ct arrayExpr c) fun arrayPtr c =>
          cgbind (prev.exprCG ct idxExpr c) fun idxVal c =>
          if !idxVal.ty.isIntegerTy then .error .indexNotInteger
          else
            cgbind (typeCodeGen (fuel + 1) ct ty c) fun lty c =>
            (match lty with
            | .arrayT elemType len =>
                cgbind (freshId c) fun id c =>
                cgbind (emit (.gepI (.arrayT elemType len) id) c) fun _ c =>
                let _ := arrayPtr
                .ok ({ id := id, ty := .ptrT, prov := .gepP elemType }, c)
            | _ => .error .arrayTypeExpected)
      | .ptrIndexAccess ptrExpr idxExpr _ ty =>
          cgbind (prev.exprCG ct ptrExpr c) fun ptrVal c =>
          if !ptrVal.ty.isPointerTy then .error .indexNonPointer
          else
            cgbind (prev.exprCG ct idxExpr c) fun idxVal c =>
            if !idxVal.ty.isIntegerTy then .error .indexNotInteger
            else
              cgbind (ptrTargetCodeGen (fuel + 1) ct ty c) fun elemLTy c =>
              cgbind (freshId c) fun id c =>
              cgbind (emit (.gepI elemLTy id) c) fun _ c =>
              let _ := ptrVal
              .ok ({ id := id, ty := .ptrT, prov := .gepP elemLTy }, c)
      | _ =>
          -- ExpressionNode::codeGenLValue's base implementation:
          -- "Lvalue codegen not supported on this expression." + exit
          .error .internalCG

  /- The argument-lowering loop of `FunctionCall::codeGen` (left to
  right). -/
  argsCG := fun ct args c =>
      match args with
      | [] => .ok ([], c)
      | a :: rest =>
          cgbind (prev.exprCG ct a c) fun v c =>
          cgbind (prev.argsCG ct rest c) fun vs c =>
          .ok (v :: vs, c)

def exprCGAt : Nat → ExprCGFns :=
  Nat.rec exprCGZero exprCGStep

/-- The expression r-value lowering at a recursion budget. -/
def exprCG (fuel : Nat) (ct : List (String × ClassNode))
    (e : ExpressionNode) : CG Value :=
  (exprCGAt fuel).exprCG ct e

/-- The expression l-value lowering at a recursion budget. -/
def exprCGL (fuel : Nat) (ct : List (String × ClassNode))
    (e : ExpressionNode) : CG Value :=
  (exprCGAt fuel).exprCGL ct e

/-! ### Statement lowering (`codegen/statement.cpp`) -/

/-- The mutually recursive statement-lowering functions, bundled per
recursion depth exactly like `ExprParseFns`.  At depth `0` the statement
loop still lowers the empty statement list (its base case spends no
recursion budget). -/
structure StmtCGFns where
  stmtCG : List (String × ClassNode) → StatementNode → CG Unit
  stmtsCG : List (String × ClassNode) → List StatementNode → CG Unit

def stmtCGZero : StmtCGFns :=
  { stmtCG := fun _ _ _ => .error .outOfFuelCG
    stmtsCG := fun _ l c =>
      match l with
      | [] => .ok ((), c)
      | _ :: _ => .error .outOfFuelCG }

/-- One depth level of the statement-lowering group. -/
def stmtCGStep (fuel : Nat) (prev : StmtCGFns) : StmtCGFns where
  /- The `codeGen` methods of the statement nodes. -/
  stmtCG := fun ct s c =>
      match s with
      | .varDecl ty name initVal =>
          cgbind (typeCodeGen (fuel + 1) ct ty c) fun lty c =>
          cgbind (freshId c) fun aid c =>
          cgbind (emit (.allocaI lty aid) c) fun _ c =>
          cgbind
            (match initVal with
            | some e =>
                cgbind (exprCG (fuel + 1) ct e c) fun v c =>
                cgbind (convertIfNeeded v lty e.isSignedE c) fun conv c =>
                if lty = conv.ty then emit (.storeI conv.id aid) c
                else .error .initTypeIncompatible
            | none => .ok ((), c)) fun _ c =>
          cgDeclareVariable name (aid, lty) c
      | .assign target value =>
          cgbind (exprCGL (fuel + 1) ct target c) fun ptr c =>
          cgbind (exprCG (fuel + 1) ct value c) fun v c =>
          let targetType :=
            match ptr.prov with
            | .allocaP t => t
            | .gepP t => t
            | .otherP => v.ty
          cgbind (convertIfNeeded v targetType value.isSignedE c) fun conv c =>
          emit (.storeI conv.id ptr.id) c
      | .ret value =>
          (match c.curFnRet with
          | none => .error .internalCG
          | some returnType =>
              match value with
              | some e =>
                  cgbind (exprCG (fuel + 1) ct e c) fun v c =>
                  cgbind (convertIfNeeded v returnType e.isSignedE c)
                    fun conv c =>
                  if returnType ≠ conv.ty then .error .returnTypeMismatch
                  else emit (.retI conv.id) c
              | none =>
                  if !returnType.isVoidTy then .error .nonVoidReturnsVoid
                  else emit .retVoidI c)
      | .ifStmt cond trueBody falseBody =>
          cgbind (newBlock c) fun thenBB c =>
          cgbind
            (match falseBody with
            | some _ =>
                cgbind (newBlock c) fun b c => .ok (some b, c)
            | none => .ok (none, c)) fun elseBB c =>
          cgbind (newBlock c) fun mergeBB c =>
          cgbind (exprCG (fuel + 1) ct cond c) fun condVal c =>
          if !condVal.ty.isIntegerTy then .error .conditionNotInteger
          else
            cgbind
              (match elseBB with
              | some eb => emit (.condBrI condVal.id thenBB eb) c
              | none => emit (.condBrI condVal.id thenBB mergeBB) c)
              fun _ c =>
            cgbind (setInsertPoint thenBB c) fun _ c =>
            cgbind (prev.stmtsCG ct trueBody c) fun _ c =>
            cgbind (getInsertBlock c) fun b1 c =>
            cgbind
              (if !blockHasTerminator b1 then emit (.brI mergeBB) c
              else .ok ((), c)) fun _ c =>
            cgbind
              (match falseBody, elseBB with
              | some fb, some eb =>
                  cgbind (setInsertPoint eb c) fun _ c =>
                  cgbind (prev.stmtsCG ct fb c) fun _ c =>
                  cgbind (getInsertBlock c) fun b2 c =>
                  if !blockHasTerminator b2 then emit (.brI mergeBB) c
                  else .ok ((), c)
              | _, _ => .ok ((), c)) fun _ c =>
            setInsertPoint mergeBB c
      | .whileStmt cond body =>
          cgbind (newBlock c) fun condBB c =>
          cgbind (newBlock c) fun bodyBB c =>
          cgbind (newBlock c) fun exitBB c =>
          cgbind (emit (.brI condBB) c) fun _ c =>
          cgbind (setInsertPoint condBB c) fun _ c =>
          cgbind (exprCG (fuel + 1) ct cond c) fun condVal c =>
          if !condVal.ty.isIntegerTy then .error .conditionNotInteger
          else
            cgbind (emit (.condBrI condVal.id bodyBB exitBB) c) fun _ c =>
            cgbind (setInsertPoint bodyBB c) fun _ c =>
            cgbind (prev.stmtsCG ct body c) fun _ c =>
            cgbind (emit (.brI condBB) c) fun _ c =>
            setInsertPoint exitBB c
      | .exprStmt e =>
          cgbind (exprCG (fuel + 1) ct e c) fun _ c =>
          .ok ((), c)

  /- The statement `for` loops of `If::codeGen` and `While::codeGen`
  (no terminator check between statements). -/
  stmtsCG := fun ct l c =>
      match l with
      | [] => .ok ((), c)
      | s :: rest =>
          cgbind (prev.stmtCG ct s c) fun _ c =>
          prev.stmtsCG ct rest c

def stmtCGAt : Nat → StmtCGFns :=
  Nat.rec stmtCGZero stmtCGStep

/-- The statement lowering at a recursion budget. -/
def stmtCG (fuel : Nat) (ct : List (String × ClassNode))
    (s : StatementNode) : CG Unit :=
  (stmtCGAt fuel).stmtCG ct s

/-- The statement-list lowering at a recursion budget. -/
def stmtsCG (fuel : Nat) (ct : List (String × ClassNode))
    (l : List StatementNode) : CG Unit :=
  (stmtCGAt fuel).stmtsCG ct l

/-! ### Function lowering (`codegen/function.cpp`) -/

/-- The parameter spill loop of `FunctionNode::generateFunctionBody`:
each argument gets a stack slot, is stored into it and bound in the
scope. -/
def paramSpillLoop (fuel : Nat) (ct : List (String × ClassNode)) :
    List (String × Option TypeNode) → CG Unit :=
  List.rec (cgok ()) (fun p _rest ih c =>
    match p.2 with
    | none => .error .nullDerefCG
    | some t =>
        cgbind (typeCodeGen fuel ct t c) fun lty c =>
        cgbind (freshId c) fun aid c =>
        cgbind (emit (.allocaI lty aid) c) fun _ c =>
        cgbind (freshId c) fun vid c =>
        cgbind (emit (.storeI vid aid) c) fun _ c =>
        cgbind (cgDeclareVariable p.1 (aid, lty) c) fun _ c =>
        ih c)

/-- The body loop of `generateFunctionBody`: after each statement, stop
when the insertion block has a terminator. -/
def genBodyLoop (fuel : Nat) (ct : List (String × ClassNode)) :
    List StatementNode → CG Unit :=
  List.rec (cgok ()) (fun s _rest ih c =>
    cgbind (stmtCG fuel ct s c) fun _ c =>
    cgbind (getInsertBlock c) fun b c =>
    if blockHasTerminator b then .ok ((), c)
    else ih c)

/-- `FunctionNode::generateFunctionBody`: entry block, scope push,
parameter spills, the statement loop, and the implicit `ret void` when
the final insertion block has no terminator. -/
def generateFunctionBody (fuel : Nat) (ct : List (String × ClassNode))
    (fn : FunctionNode) : CG Unit := fun c =>
  cgbind (newBlock c) fun entry c =>
  cgbind (setInsertPoint entry c) fun _ c =>
  cgbind (cgPushScope c) fun _ c =>
  cgbind (paramSpillLoop fuel ct fn.params c) fun _ c =>
  cgbind
    (match fn.body with
    | none => .error .nullDerefCG
    | some stmts => genBodyLoop fuel ct stmts c) fun _ c =>
  cgbind (getInsertBlock c) fun b c =>
  cgbind
    (if !blockHasTerminator b then emit .retVoidI c else .ok ((), c))
    fun _ c =>
  cgPopScope c

/-- The parameter-type loop of `FunctionNode::codeGen`. -/
def paramTysLoop (fuel : Nat) (ct : List (String × ClassNode)) :
    List (String × Option TypeNode) → CG (List LTy) :=
  List.rec (cgok []) (fun p _rest ih c =>
    match p.2 with
    | none => .error .nullDerefCG
    | some t =>
        cgbind (typeCodeGen fuel ct t c) fun lty c =>
        cgbind (ih c) fun rest c =>
        .ok (lty :: rest, c))

/-- `FunctionNode::codeGen`: build the function type, create the module
function (linkage is irrelevant here), and generate the body when one
exists. -/
def functionCodeGen (fuel : Nat) (ct : List (String × ClassNode))
    (fn : FunctionNode) : CG Unit := fun c =>
  cgbind
    (match fn.retType with
    | none => .error .nullDerefCG
    | some t => typeCodeGen fuel ct t c) fun retLTy c =>
  cgbind (paramTysLoop fuel ct fn.params c) fun paramTys c =>
  let c := { c with moduleFns := c.moduleFns ++ [(fn.name, (retLTy, paramTys))],
                    curFnRet := some retLTy }
  match fn.body with
  | some _ => generateFunctionBody fuel ct fn c
  | none => .ok ((), c)

def initCGCtx : CGCtx :=
  { blocks := [], cur := 0, cgScopes := [], namedStructs := [],
    moduleFns := [], nextId := 0, curFnRet := none }

/-- The struct-lowering loop of `main`. -/
def structsCGLoop (fuel : Nat) (ct : List (String × ClassNode)) :
    List String → CG Unit :=
  List.rec (cgok ()) (fun n _rest ih c =>
    cgbind (structCodeGen fuel ct n c) fun _ c =>
    ih c)

/-- The function-lowering loop of `main`. -/
def fnsCGLoop (fuel : Nat) (ct : List (String × ClassNode)) :
    List FunctionNode → CG Unit :=
  List.rec (cgok ()) (fun f _rest ih c =>
    cgbind (functionCodeGen fuel ct f c) fun _ c =>
    ih c)

/-- The driver loop of `main`: lower every class (in `classes_` order),
then every function. -/
def codeGenModule (fuel : Nat) (st : ParserState) : CG Unit := fun c =>
  cgbind (structsCGLoop fuel st.classTable st.classes c) fun _ c =>
  fnsCGLoop fuel st.classTable st.functions c

/-- Full pipeline on one source file: parse, then emit IR. -/
def compileSource (fuel : Nat) (src : String) :
    Except PErr (Except CGErr (ParserState × CGCtx)) :=
  match runParseFile fuel src with
  | .error e => .error e
  | .ok st =>
      match codeGenModule fuel st initCGCtx with
      | .error e => .ok (.error e)
      | .ok (_, c) => .ok (.ok (st, c))

/-! ## Import processing (`Parser::parse`, `Parser::processImports`)

Path resolution and file reading go through `std::filesystem` and
`std::ifstream`, which the specification declares external
collaborators.  A file is therefore identified by its canonical path,
and the file system is a finite association list from canonical path to
that file's import list — the maximal prefix of `import "path";`
statements that `processImports` walks before hitting the first
non-import token.  `processImports` recursion is embedded with a depth
budget; a `none` result marks budget exhaustion, which the termination
theorem rules out for a sufficient budget.  The structure of the C++ is
kept: an import whose canonical path is already in `importedFiles_` is
skipped (`continue`); otherwise the path is inserted *before* the
recursive processing of that file, and the file's own `parseFile` run
(recorded in the parse order) happens after its transitive imports. -/

inductive ImpErr where
  | missingFile (path : String)
deriving DecidableEq, Repr

/-- The two mutually recursive halves of `Parser::processImports`,
bundled per recursion depth exactly like `ExprParseFns`.  At depth `0`
the import loop still accepts the empty import list (that case spends no
recursion budget). -/
structure ImportFns where
  processImportList : List String → List String → List String →
    Except ImpErr (Option (List String × List String))
  processFileImports : List String → List String → String →
    Except ImpErr (Option (List String × List String))

def importZero : ImportFns :=
  { processImportList := fun imported order l =>
      match l with
      | [] => .ok (some (imported, order))
      | _ :: _ => .ok none
    processFileImports := fun _ _ _ => .ok none }

/-- One depth level of the import-processing pair, over the fixed file
system `files`. -/
def importStep (files : List (String × List String)) (_fuel : Nat)
    (prev : ImportFns) : ImportFns where
  /- The import loop of `Parser::processImports` over the current file's
  list of imports: existence check (missing file is fatal), dedup against
  the set of already-imported paths, insertion before recursion, recursion
  into the newly inserted file, then the rest of the list with the grown
  set. -/
  processImportList := fun imported order l =>
      match l with
      | [] => .ok (some (imported, order))
      | q :: rest =>
          match files.lookup q with
          | none => .error (.missingFile q)
          | some _ =>
              if q ∈ imported then prev.processImportList imported order rest
              else
                match prev.processFileImports (q :: imported) order q with
                | .error e => .error e
                | .ok none => .ok none
                | .ok (some (imported', order')) =>
                    prev.processImportList imported' order' rest
  /- Processing of one file whose path is already in the imported set:
  its own imports depth-first, then its `parseFile` run (appended to the
  parse order). -/
  processFileImports := fun imported order p =>
      match prev.processImportList imported order
          ((files.lookup p).getD []) with
      | .error e => .error e
      | .ok none => .ok none
      | .ok (some (imported', order')) => .ok (some (imported', order' ++ [p]))

def importAt (files : List (String × List String)) : Nat → ImportFns :=
  Nat.rec importZero (importStep files)

/-- The import loop of `Parser::processImports` at a recursion budget. -/
def processImportList (files : List (String × List String)) (fuel : Nat)
    (imported order l : List String) :
    Except ImpErr (Option (List String × List String)) :=
  (importAt files fuel).processImportList imported order l

/-- One file's import processing at a recursion budget. -/
def processFileImports (files : List (String × List String)) (fuel : Nat)
    (imported order : List String) (p : String) :
    Except ImpErr (Option (List String × List String)) :=
  (importAt files fuel).processFileImports imported order p

/-- `Parser::parse`: the root file's canonical path is inserted first,
then its imports are processed and the root itself parsed. -/
def parseRootImports (files : List (String × List String)) (fuel : Nat)
    (root : String) : Except ImpErr (Option (List String × List String)) :=
  processFileImports files fuel [root] [] root

/-! # Theorems -/

/-! ## C7: lexer save/restore round trip -/

theorem restoreState_saveState (lx1 lx2 : Lexer) (h : lx2.src = lx1.src) :
    lx2.restoreState lx1.saveState = lx1 := by
  cases lx1
  cases lx2
  simp only [Lexer.saveState, Lexer.restoreState] at h ⊢
  simp_all

/-- C7: a state saved by `saveState` snapshots the source cursor, the
look-ahead deque, the token cursor and the row/column — all the mutable
state `peek`/`consume` depend on (the source text itself is immutable for
the lexer's lifetime).  Hence after `restoreState(s)` on any
later / mutated lexer over the same source, every sequence of
`peek`/`consume` observations returns tokens identical in type, text,
row and column (and identical lexing errors) to the sequence observed
from the moment `saveState` returned `s`. -/
theorem c7_save_restore_trace (lx1 lx2 : Lexer) (ops : List LexOp)
    (h : lx2.src = lx1.src) :
    runLexOps (lx2.restoreState lx1.saveState) ops = runLexOps lx1 ops := by
  rw [restoreState_saveState lx1 lx2 h]

/-- Witness for C7 at a concrete save/restore pair: the lexer that saved
has cursor 0 over `"ab"`, the lexer being restored has advanced. -/
theorem c7_save_restore_trace_witness :
    runLexOps
      (Lexer.restoreState
        { src := "ab".data, srcCursor := 1, lookAhead := [], tokensCursor := 0,
          row := 1, col := 2 }
        (Lexer.saveState (Lexer.ofString "ab")))
      [.peekOp 0, .consumeOp, .consumeOp] =
    runLexOps (Lexer.ofString "ab") [.peekOp 0, .consumeOp, .consumeOp] :=
  c7_save_restore_trace (Lexer.ofString "ab")
    { src := "ab".data, srcCursor := 1, lookAhead := [], tokensCursor := 0,
      row := 1, col := 2 }
    [.peekOp 0, .consumeOp, .consumeOp] rfl

/-! ## C9: tokenization at end of text -/

/-- Counterexample to C9 as stated: `"1.5"` is a source text whose final
character is a digit, yet lexing it performs no out-of-range access and
returns its final token normally (a float literal followed by
end-of-file, with no error). -/
theorem c9_counterexample :
    isDigitC ("1.5".data.getLastD ' ') = true ∧
    tokenizeN "1.5" 2 =
      ([{ type := .floatLit, src := "1.5", row := 1, col := 1 },
        { type := .endOfFile, src := "", row := 0, col := 0 }], none) := by
  constructor
  · decide
  · decide


/-! ## Helper lemmas: lexicographic string order and sorted maps -/

theorem strLtL_irrefl : ∀ l : List Char, strLtL l l = false := by
  intro l
  induction l with
  | nil => rfl
  | cons a as ih => simp [strLtL, ih]

theorem strLtL_asymm : ∀ a b : List Char, strLtL a b = true → strLtL b a = false := by
  intro a
  induction a with
  | nil => intro b h; cases b <;> simp_all [strLtL]
  | cons x xs ih =>
      intro b h
      cases b with
      | nil => simp_all [strLtL]
      | cons y ys =>
          simp only [strLtL] at h ⊢
          rcases lt_trichotomy x y with hxy | hxy | hxy
          · simp [hxy, not_lt.mpr hxy.le, not_lt_of_gt hxy]
          · subst hxy; simp_all [lt_irrefl]
          · simp [hxy, not_lt_of_gt hxy] at h

theorem strLtL_trans : ∀ a b c : List Char,
    strLtL a b = true → strLtL b c = true → strLtL a c = true := by
  intro a
  induction a with
  | nil =>
      intro b c hab hbc
      cases b <;> cases c <;> simp_all [strLtL]
  | cons x xs ih =>
      intro b c hab hbc
      cases b with
      | nil => simp_all [strLtL]
      | cons y ys =>
          cases c with
          | nil => simp_all [strLtL]
          | cons z zs =>
              simp only [strLtL] at hab hbc ⊢
              rcases lt_trichotomy x y with hxy | hxy | hxy
              · rcases lt_trichotomy y z with hyz | hyz | hyz
                · simp [lt_trans hxy hyz]
                · subst hyz; simp [hxy]
                · simp [hyz, not_lt_of_gt hyz] at hbc
              · subst hxy
                simp only [lt_irrefl, if_false] at hab
                rcases lt_trichotomy x z with hxz | hxz | hxz
                · simp [hxz]
                · subst hxz
                  simp only [lt_irrefl, if_false] at hbc ⊢
                  exact ih ys zs hab hbc
                · simp [hxz, not_lt_of_gt hxz] at hbc
              · simp [hxy, not_lt_of_gt hxy] at hab

theorem strLtL_conn : ∀ a b : List Char,
    strLtL a b = false → strLtL b a = false → a = b := by
  intro a
  induction a with
  | nil => intro b h1 h2; cases b <;> simp_all [strLtL]
  | cons x xs ih =>
      intro b h1 h2
      cases b with
      | nil => simp_all [strLtL]
      | cons y ys =>
          simp only [strLtL] at h1 h2
          rcases lt_trichotomy x y with hxy | hxy | hxy
          · simp [hxy] at h1
          · subst hxy
            simp only [lt_irrefl, if_false] at h1 h2
            rw [ih ys h1 h2]
          · simp [hxy] at h2

theorem strLt_irrefl (a : String) : strLt a a = false := strLtL_irrefl a.data

theorem strLt_asymm {a b : String} (h : strLt a b = true) : strLt b a = false :=
  strLtL_asymm a.data b.data h

theorem strLt_trans {a b c : String} (h1 : strLt a b = true)
    (h2 : strLt b c = true) : strLt a c = true :=
  strLtL_trans a.data b.data c.data h1 h2

theorem strLt_conn {a b : String} (h1 : strLt a b = false)
    (h2 : strLt b a = false) : a = b := by
  cases a with
  | mk da =>
      cases b with
      | mk db => exact congrArg String.mk (strLtL_conn da db h1 h2)

theorem smapAssign_headKey {α : Type} (k : String) (v : α) (m : List (String × α)) :
    ((smapAssign k v m).head?.map Prod.fst) = some k ∨
    ((smapAssign k v m).head?.map Prod.fst) = m.head?.map Prod.fst := by
  cases m with
  | nil => left; rfl
  | cons p rest =>
      by_cases h1 : strLt k p.1 = true
      · left; simp [smapAssign, h1]
      · by_cases h2 : strLt p.1 k = true
        · right; simp [smapAssign, h1, h2]
        · right; simp [smapAssign, h1, h2]

theorem smapAssign_chain {α : Type} (k : String) (v : α) :
    ∀ m : List (String × α),
      List.Chain' (fun p q : String × α => strLt p.1 q.1 = true) m →
      List.Chain' (fun p q : String × α => strLt p.1 q.1 = true)
        (smapAssign k v m) := by
  intro m
  induction m with
  | nil => intro _; simp [smapAssign]
  | cons p rest ih =>
      intro hm
      rw [List.chain'_cons'] at hm
      by_cases h1 : strLt k p.1 = true
      · simp only [smapAssign]
        rw [if_pos h1]
        rw [List.chain'_cons']
        refine ⟨?_, List.chain'_cons'.mpr hm⟩
        intro y hy
        simp at hy
        subst hy
        exact h1
      · by_cases h2 : strLt p.1 k = true
        · simp only [smapAssign]
          rw [if_neg h1, if_pos h2]
          rw [List.chain'_cons']
          refine ⟨?_, ih hm.2⟩
          intro y hy
          have hy' : (smapAssign k v rest).head? = some y := Option.mem_def.mp hy
          rcases smapAssign_headKey k v rest with hh | hh
          · rw [hy'] at hh
            simp at hh
            rw [hh]
            exact h2
          · rw [hy'] at hh
            cases hr : rest.head? with
            | none => rw [hr] at hh; simp at hh
            | some q =>
                rw [hr] at hh
                simp at hh
                rw [hh]
                exact hm.1 q (Option.mem_def.mpr hr)
        · simp only [smapAssign]
          rw [if_neg h1, if_neg h2]
          rw [List.chain'_cons']
          exact ⟨fun y hy => hm.1 y hy, hm.2⟩

theorem smapAssign_keys_mem {α : Type} (k : String) (v : α) :
    ∀ (m : List (String × α)) (x : String),
      (x ∈ (smapAssign k v m).map Prod.fst ↔ x = k ∨ x ∈ m.map Prod.fst) := by
  intro m
  induction m with
  | nil => intro x; simp [smapAssign]
  | cons p rest ih =>
      intro x
      by_cases h1 : strLt k p.1 = true
      · simp only [smapAssign]
        rw [if_pos h1]
        simp
      · by_cases h2 : strLt p.1 k = true
        · simp only [smapAssign]
          rw [if_neg h1, if_pos h2]
          simp only [List.map_cons, List.mem_cons, ih x]
          tauto
        · have hk : k = p.1 :=
            strLt_conn (by simpa using h1) (by simpa using h2)
          simp only [smapAssign]
          rw [if_neg h1, if_neg h2]
          simp only [List.map_cons, List.mem_cons, ← hk]
          tauto

theorem chain_head_lt {α : Type} :
    ∀ (rest : List (String × α)) (p : String × α),
      List.Chain' (fun p q : String × α => strLt p.1 q.1 = true) (p :: rest) →
      ∀ x ∈ rest.map Prod.fst, strLt p.1 x = true := by
  intro rest
  induction rest with
  | nil => intro p _ x hx; simp at hx
  | cons q rest' ih =>
      intro p hm x hx
      have hpq : strLt p.1 q.1 = true := (List.chain'_cons.mp hm).1
      have hq : List.Chain' (fun p q : String × α => strLt p.1 q.1 = true)
          (q :: rest') := (List.chain'_cons.mp hm).2
      simp at hx
      rcases hx with hx | hx
      · rw [← hx] at hpq; exact hpq
      · exact strLt_trans hpq (ih q hq x (by simpa using hx))

theorem sorted_rank {α : Type} :
    ∀ (m : List (String × α)),
      List.Chain' (fun p q : String × α => strLt p.1 q.1 = true) m →
      ∀ k, k ∈ m.map Prod.fst →
      smapIndexOf m k =
        some (((m.map Prod.fst).filter (fun j => strLt j k)).length) := by
  intro m
  induction m with
  | nil => intro _ k hk; simp at hk
  | cons p rest ih =>
      intro hm k hk
      by_cases hpk : p.1 = k
      · have hfilter :
            ((p :: rest).map Prod.fst).filter (fun j => strLt j k) = [] := by
          rw [List.filter_eq_nil_iff]
          intro a ha
          simp at ha
          rcases ha with ha | ha
          · rw [ha, hpk]
            simp [strLt_irrefl]
          · have := chain_head_lt rest p hm a (by simpa using ha)
            rw [hpk] at this
            simp [strLt_asymm this]
        rw [hfilter]
        simp [smapIndexOf, List.findIdx?, hpk]
      · have hk' : k ∈ rest.map Prod.fst := by
          simp at hk
          rcases hk with hk | hk
          · exact absurd hk.symm hpk
          · simpa using hk
        have hlt : strLt p.1 k = true := chain_head_lt rest p hm k hk'
        have hrest := ih (List.chain'_cons'.mp hm).2 k hk'
        have hfilter :
            ((p :: rest).map Prod.fst).filter (fun j => strLt j k) =
            p.1 :: ((rest.map Prod.fst).filter (fun j => strLt j k)) := by
          simp [List.filter, hlt]
        rw [hfilter]
        simp only [smapIndexOf] at hrest ⊢
        rw [List.findIdx?_cons]
        simp [hpk, hrest]

theorem foldl_assign_chain {α : Type} :
    ∀ (decls : List (String × α)) (m0 : List (String × α)),
      List.Chain' (fun p q : String × α => strLt p.1 q.1 = true) m0 →
      List.Chain' (fun p q : String × α => strLt p.1 q.1 = true)
        (decls.foldl (fun m p => smapAssign p.1 p.2 m) m0) := by
  intro decls
  induction decls with
  | nil => intro m0 h; simpa using h
  | cons d rest ih =>
      intro m0 h
      simpa using ih (smapAssign d.1 d.2 m0) (smapAssign_chain d.1 d.2 m0 h)

theorem foldl_assign_mem {α : Type} :
    ∀ (decls : List (String × α)) (m0 : List (String × α)) (x : String),
      (x ∈ (decls.foldl (fun m p => smapAssign p.1 p.2 m) m0).map Prod.fst ↔
        x ∈ m0.map Prod.fst ∨ x ∈ decls.map Prod.fst) := by
  intro decls
  induction decls with
  | nil => intro m0 x; simp
  | cons d rest ih =>
      intro m0 x
      simp only [List.foldl_cons]
      rw [ih (smapAssign d.1 d.2 m0) x]
      rw [smapAssign_keys_mem d.1 d.2 m0 x]
      simp
      tauto

/-- C1 amended: for every class-body declaration list (in source order),
the member map that `Parser::parseClass` builds by successive
`members[name] = type` assignments has its keys in strictly ascending
lexicographic order — the iteration order of `std::map` — a name is a
key exactly when it was declared, and each member's struct/GEP index
(`ClassNode::lookupMemberIndex`) is its *rank in that sorted order*: the
number of declared names lexicographically smaller than it.  Layout
therefore agrees with declaration order only when the members happen to
be declared in sorted order (see `c1_counterexample`). -/
theorem c1_member_layout_sorted :
    ∀ (decls : List (String × Option TypeNode)) (nm : String),
      List.Chain' (fun a b : String => strLt a b = true)
        ((decls.foldl (fun m p => smapAssign p.1 p.2 m) []).map Prod.fst) ∧
      (∀ x : String,
        x ∈ (decls.foldl (fun m p => smapAssign p.1 p.2 m) []).map Prod.fst ↔
        x ∈ decls.map Prod.fst) ∧
      (∀ k : String,
        k ∈ (decls.foldl (fun m p => smapAssign p.1 p.2 m) []).map Prod.fst →
        ClassNode.lookupMemberIndex
          ⟨nm, decls.foldl (fun m p => smapAssign p.1 p.2 m) []⟩ k =
          some ((((decls.foldl (fun m p => smapAssign p.1 p.2 m) []).map
            Prod.fst).filter (fun j => strLt j k)).length)) := by
  intro decls nm
  have hchain := foldl_assign_chain decls [] (by simp)
  refine ⟨?_, ?_, ?_⟩
  · rw [List.chain'_map]
    exact hchain
  · intro x
    rw [foldl_assign_mem decls [] x]
    simp
  · intro k hk
    exact sorted_rank _ hchain k hk

/-- Witness for the amended C1 at the declaration list of
`c1_counterexample` (`b` declared before `a`): `b` is a member, and its
GEP index is the number of member names smaller than `"b"` (namely 1,
counting `"a"`), not its declaration position 0. -/
theorem c1_member_layout_sorted_witness :
    ("b" ∈ (([("b", (none : Option TypeNode)), ("a", none)].foldl
        (fun m p => smapAssign p.1 p.2 m) []).map Prod.fst)) ∧
    ClassNode.lookupMemberIndex
      ⟨"C", [("b", (none : Option TypeNode)), ("a", none)].foldl
        (fun m p => smapAssign p.1 p.2 m) []⟩ "b" =
      some (((([("b", (none : Option TypeNode)), ("a", none)].foldl
        (fun m p => smapAssign p.1 p.2 m) []).map
          Prod.fst).filter (fun j => strLt j "b")).length) :=
  ⟨by decide,
   (c1_member_layout_sorted [("b", none), ("a", none)] "C").2.2 "b" (by decide)⟩

/-! ## C1: struct member layout -/

/-- Counterexample to C1 as stated: in `class C { int b ; int a ; }` the
member `b` is declared first (source position 0), yet the member map at
class-close time iterates as `["a", "b"]` and `lookupMemberIndex` — the
index used by struct-member GEPs — gives `b` index 1, not its
declaration position 0; the emitted GEP for `c . b` indeed uses field
index 1.  Layout is the `std::map` key order, not the declaration
(insertion) order. -/
theorem c1_counterexample :
    (match runParseFile 64 "class C \x7b int b ; int a ; \x7d" with
     | .ok st => (smapFind st.classTable "C").map
         (fun (d : ClassNode) =>
           (d.members.map Prod.fst, d.lookupMemberIndex "b"))
     | .error _ => none) = some (["a", "b"], some 1) ∧
    (match compileSource 64
        "class C \x7b int b ; int a ; \x7d int g ( ) \x7b C c ; c . b = 1 ; return 0 ; \x7d" with
     | .ok (.ok (_, c)) => c.blocks
     | _ => []) =
      [[.allocaI (.structT "C") 0, .structGepI "C" 1 1, .storeI 2 1,
        .retI 3]] :=
  ⟨by decide, by decide⟩

/-! ## C2: method mangling and the implicit `this` -/

/-- Counterexample to C2 as stated: for a class whose body declares no
data members, the method of `class C { int m ( ) { return 0 ; } }` is
recorded with the mangled name `C_m` but with an *empty* parameter list —
no implicit `this` is prepended, because the first class pass registers
the class type only when the member map is non-empty, and the registry
lookup in `parseFunction` comes back empty (`types["C"]` is absent). -/
theorem c2_counterexample :
    (match runParseFile 64 "class C \x7b int m ( ) \x7b return 0 ; \x7d \x7d" with
     | .ok st => st.functions.map (fun (f : FunctionNode) => (f.name, f.params))
     | .error _ => []) = [("C_m", [])] ∧
    (match runParseFile 64 "class C \x7b int m ( ) \x7b return 0 ; \x7d \x7d" with
     | .ok st => smapFind st.types "C"
     | .error _ => some (.primitive .void false)) = none :=
  ⟨by decide, by decide⟩


/-! ## Helper lemmas: destructuring parser runs -/

theorem pbind_ok {α β : Type} {m : Except PErr (α × ParserState)} {f : α → PM β}
    {b : β} {st' : ParserState} (h : pbind m f = .ok (b, st')) :
    ∃ a st1, m = .ok (a, st1) ∧ f a st1 = .ok (b, st') := by
  cases m with
  | error e => simp [pbind] at h
  | ok p =>
      obtain ⟨a, st1⟩ := p
      exact ⟨a, st1, rfl, h⟩

theorem liftLex_frame {α : Type} (f : Lexer → Except LexErr (α × Lexer))
    {st : ParserState} {a : α} {st' : ParserState}
    (h : liftLex f st = .ok (a, st')) :
    st'.currentClassName = st.currentClassName ∧ st'.types = st.types := by
  unfold liftLex at h
  cases hf : f st.lexer with
  | error e => rw [hf] at h; cases h
  | ok p => rw [hf] at h; cases h; exact ⟨rfl, rfl⟩

theorem pmPeek_frame {off : Nat} {st : ParserState} {a : Token}
    {st' : ParserState} (h : pmPeek off st = .ok (a, st')) :
    st'.currentClassName = st.currentClassName ∧ st'.types = st.types :=
  liftLex_frame _ h

theorem pmPeekT_frame {t : TokenType} {off : Nat} {st : ParserState} {a : Bool}
    {st' : ParserState} (h : pmPeekT t off st = .ok (a, st')) :
    st'.currentClassName = st.currentClassName ∧ st'.types = st.types :=
  liftLex_frame _ h

theorem pmConsume_frame {st : ParserState} {a : Token} {st' : ParserState}
    (h : pmConsume st = .ok (a, st')) :
    st'.currentClassName = st.currentClassName ∧ st'.types = st.types :=
  liftLex_frame _ h

theorem expect_frame {t : TokenType} {st : ParserState} {a : Token}
    {st' : ParserState} (h : expect t st = .ok (a, st')) :
    st'.currentClassName = st.currentClassName ∧ st'.types = st.types := by
  unfold expect at h
  obtain ⟨tok, st1, hp, h⟩ := pbind_ok h
  have f1 := pmPeek_frame hp
  split at h
  · have f2 := pmConsume_frame h
    exact ⟨f2.1.trans f1.1, f2.2.trans f1.2⟩
  · cases h

theorem validateIdentifier_ok {id : String} {st : ParserState} {u : Unit}
    {st' : ParserState} (h : validateIdentifier id st = .ok (u, st')) :
    st' = st := by
  unfold validateIdentifier at h
  split at h
  · cases h
  · cases h; rfl

theorem getTypeNode_ok {n : String} {st : ParserState} {a : Option TypeNode}
    {st' : ParserState} (h : getTypeNode n st = .ok (a, st')) :
    a = smapFind st.types n ∧ st' = st := by
  unfold getTypeNode at h
  cases h
  exact ⟨rfl, rfl⟩

theorem parsePtrLoop_frame :
    ∀ (fuel : Nat) {st : ParserState} {n : Nat} {st' : ParserState},
      parsePtrLoop fuel st = .ok (n, st') →
      st'.currentClassName = st.currentClassName ∧ st'.types = st.types := by
  intro fuel
  induction fuel with
  | zero => intro st n st' h; cases h
  | succ m ih =>
      intro st n st' h
      have hu : parsePtrLoop (m + 1) st =
          (pbind (pmPeekT .ptrKw 0 st) fun b st =>
            if b then
              pbind (pmConsume st) fun _ st =>
              pbind (parsePtrLoop m st) fun n st =>
              .ok (n + 1, st)
            else .ok (0, st)) := rfl
      rw [hu] at h
      obtain ⟨b, st1, hp, h⟩ := pbind_ok h
      have f1 := pmPeekT_frame hp
      split at h
      · obtain ⟨_, st2, hc, h⟩ := pbind_ok h
        have f2 := pmConsume_frame hc
        obtain ⟨n', st3, hl, h⟩ := pbind_ok h
        have f3 := ih hl
        cases h
        exact ⟨f3.1.trans (f2.1.trans f1.1), f3.2.trans (f2.2.trans f1.2)⟩
      · cases h
        exact f1

theorem parseType_frame {fuel : Nat} {st : ParserState} {r : Option TypeNode}
    {st' : ParserState} (h : parseType fuel st = .ok (r, st')) :
    st'.currentClassName = st.currentClassName ∧ st'.types = st.types := by
  unfold parseType at h
  obtain ⟨ptrs, st1, hl, h⟩ := pbind_ok h
  have f1 := parsePtrLoop_frame fuel hl
  obtain ⟨tok, st2, hp, h⟩ := pbind_ok h
  have f2 := pmPeek_frame hp
  obtain ⟨newType, st3, hg, h⟩ := pbind_ok h
  obtain ⟨-, rfl⟩ := getTypeNode_ok hg
  cases newType with
  | none =>
      cases h
      exact ⟨f2.1.trans f1.1, f2.2.trans f1.2⟩
  | some ty =>
      obtain ⟨_, st4, hc, h⟩ := pbind_ok h
      have f4 := pmConsume_frame hc
      obtain ⟨lb, st5, hpt, h⟩ := pbind_ok h
      have f5 := pmPeekT_frame hpt
      obtain ⟨alen, st6, hif, h⟩ := pbind_ok h
      have f6 : st6.currentClassName = st5.currentClassName ∧
          st6.types = st5.types := by
        split at hif
        · obtain ⟨_, sa, ha, hif⟩ := pbind_ok hif
          have g1 := pmConsume_frame ha
          obtain ⟨itok, sb, hb, hif⟩ := pbind_ok hif
          have g2 := expect_frame hb
          obtain ⟨_, sc, hcc, hif⟩ := pbind_ok hif
          have g3 := expect_frame hcc
          cases hif
          exact ⟨g3.1.trans (g2.1.trans g1.1), g3.2.trans (g2.2.trans g1.2)⟩
        · cases hif; exact ⟨rfl, rfl⟩
      cases h
      exact ⟨f6.1.trans (f5.1.trans (f4.1.trans (f2.1.trans f1.1))),
             f6.2.trans (f5.2.trans (f4.2.trans (f2.2.trans f1.2)))⟩

theorem parseParamsLoop_prefix :
    ∀ (fuel : Nat) (acc : List (String × Option TypeNode)) {st : ParserState}
      {params : List (String × Option TypeNode)} {st' : ParserState},
      parseParamsLoop fuel acc st = .ok (params, st') →
      ∃ tail, params = acc ++ tail := by
  intro fuel
  induction fuel with
  | zero => intro acc st params st' h; cases h
  | succ m ih =>
      intro acc st params st' h
      have hu : parseParamsLoop (m + 1) acc st =
          (pbind (pmPeek 0 st) fun t st =>
            if t.type = .rparen then .ok (acc, st)
            else
              pbind (parseType (m + 1) st) fun paramType st =>
              pbind (expect .identifier st) fun tok st =>
              pbind (validateIdentifier tok.src st) fun _ st =>
              let acc := acc ++ [(tok.src, paramType)]
              pbind (pmPeekT .comma 0 st) fun isComma st =>
              if isComma then
                pbind (pmConsume st) fun _ st =>
                parseParamsLoop m acc st
              else parseParamsLoop m acc st) := rfl
      rw [hu] at h
      obtain ⟨t, st1, hp, h⟩ := pbind_ok h
      split at h
      · cases h; exact ⟨[], by simp⟩
      · obtain ⟨paramType, st2, hpt, h⟩ := pbind_ok h
        obtain ⟨tok, st3, he, h⟩ := pbind_ok h
        obtain ⟨_, st4, hv, h⟩ := pbind_ok h
        simp only at h
        obtain ⟨isComma, st5, hc, h⟩ := pbind_ok h
        split at h
        · obtain ⟨_, st6, hcc, h⟩ := pbind_ok h
          obtain ⟨tail, htail⟩ := ih (acc ++ [(tok.src, paramType)]) h
          exact ⟨(tok.src, paramType) :: tail, by simpa using htail⟩
        · obtain ⟨tail, htail⟩ := ih (acc ++ [(tok.src, paramType)]) h
          exact ⟨(tok.src, paramType) :: tail, by simpa using htail⟩

/-- C2 amended: for every function the parser parses while inside a
class (`currentClassName_` non-empty), the recorded name is always the
mangled `ClassName_NAME`; the implicit first parameter `this : ptr C` is
prepended exactly when the class name is bound in the type registry at
that moment — which holds for classes whose first pass collected at
least one data member, and fails for memberless classes (see
`c2_counterexample`, where the method is `C_m` but has no `this`). -/
theorem c2_method_mangling :
    ∀ (fuel : Nat) (st : ParserState) (fn : FunctionNode) (st' : ParserState),
      st.currentClassName ≠ "" →
      parseFunction fuel st = .ok (fn, st') →
      (∃ base : String, fn.name = st.currentClassName ++ "_" ++ base) ∧
      (∀ t : TypeNode, smapFind st.types st.currentClassName = some t →
        fn.params.head? = some ("this", some (.pointer t))) := by
  intro fuel st fn st' hne h
  simp only [parseFunction, hne, decide_False, decide_True, Bool.not_false,
    Bool.true_and, Bool.not_true, Bool.false_and, if_true, if_false,
    ite_true, ite_false, not_false_iff] at h
  obtain ⟨type?, st1, hpt, h⟩ := pbind_ok h
  obtain ⟨nameTok, st2, hexp1, h⟩ := pbind_ok h
  obtain ⟨u, st3, hval, h⟩ := pbind_ok h
  obtain ⟨_, st4, hexp2, h⟩ := pbind_ok h
  obtain ⟨params0, st5, hthis, h⟩ := pbind_ok h
  obtain ⟨params, st6, hloop, h⟩ := pbind_ok h
  obtain ⟨_, st7, hexp3, h⟩ := pbind_ok h
  obtain ⟨tok, st8, hcons, h⟩ := pbind_ok h
  obtain ⟨body, st9, hbody, h⟩ := pbind_ok h
  cases h
  constructor
  · refine ⟨nameTok.src, ?_⟩
    show (if st.currentClassName ≠ "" then
      st.currentClassName ++ "_" ++ nameTok.src else nameTok.src) =
      st.currentClassName ++ "_" ++ nameTok.src
    rw [if_pos hne]
  · intro t ht
    rw [if_pos (decide_eq_true hne)] at hthis
    have ftypes : st4.types = st.types := by
      have f1 := parseType_frame hpt
      have f2 := expect_frame hexp1
      have f3 := validateIdentifier_ok hval
      have f4 := expect_frame hexp2
      rw [f4.2, f3, f2.2, f1.2]
    obtain ⟨thisType, st4', hget, hmatch⟩ := pbind_ok hthis
    obtain ⟨hth, rfl⟩ := getTypeNode_ok hget
    rw [ftypes, ht] at hth
    subst hth
    cases hmatch
    obtain ⟨tail, htail⟩ := parseParamsLoop_prefix fuel _ hloop
    subst htail
    rfl

/-- Witness for the amended C2: parsing `int m ( ) { return 0 ; }` with
`currentClassName = "D"` and `D` registered yields the mangled `D_m`
with `this : ptr D` prepended. -/
theorem c2_method_mangling_witness :
    (∃ base : String,
      (({ name := "D_m", retType := some (.primitive .int true),
          isPublic := true,
          params := [("this", some (.pointer (.classref "D")))],
          body := some [.ret (some (.intLit 0))],
          isDetached := false } : FunctionNode)).name = "D" ++ "_" ++ base) ∧
    (∀ t : TypeNode,
      smapFind ({ initParserState "int m ( ) \x7b return 0 ; \x7d" with
        currentClassName := "D",
        types := smapInsert "D" (.classref "D") initialTypes } :
          ParserState).types "D" = some t →
      (({ name := "D_m", retType := some (.primitive .int true),
          isPublic := true,
          params := [("this", some (.pointer (.classref "D")))],
          body := some [.ret (some (.intLit 0))],
          isDetached := false } : FunctionNode)).params.head? =
        some ("this", some (.pointer t))) :=
  c2_method_mangling 24
    { initParserState "int m ( ) \x7b return 0 ; \x7d" with
      currentClassName := "D",
      types := smapInsert "D" (.classref "D") initialTypes }
    { name := "D_m", retType := some (.primitive .int true),
      isPublic := true,
      params := [("this", some (.pointer (.classref "D")))],
      body := some [.ret (some (.intLit 0))],
      isDetached := false }
    _ (by decide) (by rfl)

/-! ## C4: hexadecimal array lengths -/

/-- C4 is a code bug: the lexer's integer-literal scan stops at the `x`,
so `0x10` is tokenized as the integer literal `0` followed by the
identifier `x10`; `parseType` on `int [ 0x10 ]` then fails with a fatal
"expected token" diagnostic at the closing bracket, and the hex branch
(`std::stoi(_, _, 16)`, which would indeed yield 16) is unreachable. -/
theorem c4_hex_length_unreachable :
    tokenizeN "0x10" 3 =
      ([{ type := .intLit, src := "0", row := 1, col := 1 },
        { type := .identifier, src := "x10", row := 1, col := 2 },
        { type := .endOfFile, src := "", row := 0, col := 0 }], none) ∧
    (match parseType 8 (initParserState "int [ 0x10 ] x ;") with
     | .error e => some e
     | .ok _ => none) = some (.expectedToken .rbracket) ∧
    stoiC "0x10" (hexBase "0x10") = 16 :=
  ⟨by decide, by decide, by decide⟩

/-! ## C5: typedef of a class type -/

/-- C5 is a code bug: `Parser::insertTypeDef` reaches a class target
through the registry as a `ClassReferenceNode`, but its second branch
dynamic-casts the handle to `ClassNode`, which is not one of the four
concrete `TypeNode` subclasses, so the cast fails for every registry
value and a class target falls through to the fatal "Invalid target type
in typedef" diagnostic; a primitive target is aliased as specified. -/
theorem c5_class_typedef_fatal :
    (∀ t : TypeNode, dynCastClassNode t = none) ∧
    (match runParseFile 64 "class C \x7b int x ; \x7d typedef D C ;" with
     | .error e => some e
     | .ok _ => none) = some .invalidTypedefTarget ∧
    (match runParseFile 8 "typedef D int ;" with
     | .ok st => smapFind st.types "D"
     | .error _ => none) = some (.primitive .int true) :=
  ⟨fun t => by cases t <;> rfl, by decide, by decide⟩

/-! ## C6: underscores in identifiers -/

/-- Counterexample to C6 as stated: the typedef alias `a_b` contains an
underscore, yet `typedef a_b int ;` parses successfully and registers
the alias — the typedef branch of `Parser::parseFile` never calls
`validateIdentifier` on the alias (or the target). -/
theorem c6_counterexample :
    "a_b".data.contains '_' = true ∧
    (match runParseFile 8 "typedef a_b int ;" with
     | .ok st => smapFind st.types "a_b"
     | .error _ => none) = some (.primitive .int true) :=
  ⟨by decide, by decide⟩

/-- C6 amended: `Parser::validateIdentifier` — which the parser does run
on variable, member, function, class and parameter names — rejects an
identifier exactly when it contains an underscore; but the typedef
branch registers its alias through `insertTypeDef` with no validation at
all, so an alias with an underscore is accepted whenever the target is a
registered primitive type. -/
theorem c6_validateIdentifier_scope :
    (∀ (id : String) (st : ParserState),
        validateIdentifier id st =
          (if id.data.contains '_' then .error (.invalidIdentifier id)
           else .ok ((), st))) ∧
    (∀ (aliasName targetName : String) (st : ParserState)
        (p : PrimitiveType) (s : Bool),
        smapFind st.types targetName = some (.primitive p s) →
        insertTypeDef aliasName targetName st =
          .ok ((), { st with
            types := smapInsert aliasName (.primitive p s) st.types })) := by
  constructor
  · intro id st
    rfl
  · intro aliasName targetName st p s h
    simp [insertTypeDef, pbind, getTypeNode, h, dynCastPrimitive,
      registerPrimitiveType]

/-- Witness for the amended C6 at a concrete input: `int` is registered
as a signed primitive in the fresh parser, so `insertTypeDef "a_b" "int"`
succeeds even though the alias contains an underscore. -/
theorem c6_validateIdentifier_scope_witness :
    insertTypeDef "a_b" "int" (initParserState "") =
      .ok ((), { initParserState "" with types := smapInsert "a_b" (.primitive .int true) (initParserState "").types }) :=
  c6_validateIdentifier_scope.2 "a_b" "int" (initParserState "") .int true
    (by decide)

/-! ## C8: unsigned division and comparisons -/

/-- C8: on integer operands the operator switch of
`BinaryOperation::codeGen` emits `udiv` for `/` and the unsigned
comparisons `ult`, `ugt`, `eq` for `<`, `>`, `==`; the node's signedness
flag is consulted only by the operand-resizing conversion, so when no
resize is needed the emission is identical for both flag values. -/
theorem c8_integer_ops_unsigned :
    ∀ (l r : Value) (c : CGCtx),
      l.ty.isIntegerTy = true → r.ty.isIntegerTy = true →
      (binOpSwitch .divide l r c =
        .ok ({ id := c.nextId, ty := l.ty, prov := .otherP },
          { c with nextId := c.nextId + 1, blocks := c.blocks.set c.cur ((c.blocks.getD c.cur []) ++ [.udivI c.nextId]) } )) ∧
      (binOpSwitch .less l r c =
        .ok ({ id := c.nextId, ty := .intT 1, prov := .otherP },
          { c with nextId := c.nextId + 1, blocks := c.blocks.set c.cur ((c.blocks.getD c.cur []) ++ [.icmpUltI c.nextId]) } )) ∧
      (binOpSwitch .more l r c =
        .ok ({ id := c.nextId, ty := .intT 1, prov := .otherP },
          { c with nextId := c.nextId + 1, blocks := c.blocks.set c.cur ((c.blocks.getD c.cur []) ++ [.icmpUgtI c.nextId]) } )) ∧
      (binOpSwitch .equal l r c =
        .ok ({ id := c.nextId, ty := .intT 1, prov := .otherP },
          { c with nextId := c.nextId + 1, blocks := c.blocks.set c.cur ((c.blocks.getD c.cur []) ++ [.icmpEqI c.nextId]) } )) ∧
      (∀ (op : BinaryOperationType) (sgn sgn' : Bool), r.ty = l.ty →
        binOpAfterOperands op l r sgn c = binOpAfterOperands op l r sgn' c) := by
  intro l r c hl hr
  have hlp : l.ty.isPointerTy = false := by
    cases hty : l.ty <;> simp_all [LTy.isIntegerTy, LTy.isPointerTy]
  refine ⟨?_, ?_, ?_, ?_, ?_⟩
  · simp [binOpSwitch, cgbind, freshId, emit, hl, hr, hlp]
  · simp [binOpSwitch, cgbind, freshId, emit, hl, hr, hlp]
  · simp [binOpSwitch, cgbind, freshId, emit, hl, hr, hlp]
  · simp [binOpSwitch, cgbind, freshId, emit, hl, hr, hlp]
  · intro op sgn sgn' hty
    simp [binOpAfterOperands, convertIfNeeded, hty, cgbind]

/-- Witness for C8 at a concrete input: two 32-bit integer values in a
fresh context. -/
theorem c8_integer_ops_unsigned_witness :
    (binOpSwitch .divide ⟨0, .intT 32, .otherP⟩ ⟨1, .intT 32, .otherP⟩
        initCGCtx =
      .ok ({ id := initCGCtx.nextId, ty := LTy.intT 32, prov := .otherP },
        { initCGCtx with nextId := initCGCtx.nextId + 1, blocks := initCGCtx.blocks.set initCGCtx.cur ((initCGCtx.blocks.getD initCGCtx.cur []) ++ [.udivI initCGCtx.nextId]) } )) ∧
    (∀ (op : BinaryOperationType) (sgn sgn' : Bool),
      binOpAfterOperands op ⟨0, .intT 32, .otherP⟩ ⟨1, .intT 32, .otherP⟩
          sgn initCGCtx =
        binOpAfterOperands op ⟨0, .intT 32, .otherP⟩ ⟨1, .intT 32, .otherP⟩
          sgn' initCGCtx) :=
  ⟨(c8_integer_ops_unsigned ⟨0, .intT 32, .otherP⟩ ⟨1, .intT 32, .otherP⟩
      initCGCtx (by decide) (by decide)).1,
   fun op sgn sgn' =>
    (c8_integer_ops_unsigned ⟨0, .intT 32, .otherP⟩ ⟨1, .intT 32, .otherP⟩
      initCGCtx (by decide) (by decide)).2.2.2.2 op sgn sgn' (by decide)⟩


/-! ## Helper lemmas: the integer-literal scan at end of text -/

theorem lookup_eq_none_of_no_key {α β : Type} [BEq α] :
    ∀ (m : List (α × β)) (a : α), (∀ p ∈ m, (a == p.1) = false) →
      m.lookup a = none := by
  intro m a
  induction m with
  | nil => intro _; rfl
  | cons p rest ih =>
      intro h
      have hp := h p (by simp)
      simp [List.lookup, hp]
      exact ih (fun q hq => h q (by simp [hq]))

theorem symbolMap_digit_none {c : Char} (hd : isDigitC c = true) :
    symbolMap.lookup c = none := by
  apply lookup_eq_none_of_no_key
  intro p hp
  have hb : 48 ≤ c.toNat ∧ c.toNat ≤ 57 := by
    simp [isDigitC] at hd
    omega
  rw [beq_eq_false_iff_ne]
  intro hc
  subst hc
  fin_cases hp <;> simp_all

theorem scanDigits_consumes_all (src : List Char) :
    ∀ (gas : Nat) (cur : Cursor) (acc : List Char),
      cur.i ≤ src.length → src.length ≤ cur.i + gas →
      (∀ j, cur.i ≤ j → j < src.length → isDigitC (src.getD j ' ') = true) →
      (scanDigits src gas cur acc).2.i = src.length := by
  intro gas
  induction gas with
  | zero =>
      intro cur acc h1 h2 _
      simp [scanDigits]
      omega
  | succ m ih =>
      intro cur acc h1 h2 hd
      by_cases hlt : cur.i < src.length
      · have hdig : isDigitC (charAt src cur) = true :=
          hd cur.i (le_refl _) hlt
        simp only [scanDigits, hlt, if_true, hdig]
        apply ih
        · simp [advanceChar]; omega
        · simp [advanceChar]; omega
        · intro j hj1 hj2
          apply hd j _ hj2
          simp [advanceChar] at hj1
          omega
      · simp only [scanDigits, hlt, if_false]
        omega

/-- C9 amended: tokenization is not total, but the out-of-range access
is not triggered by every text ending in a digit (see
`c9_counterexample`): it happens exactly when an integer-literal scan
runs to the end of the text, because the look-ahead for a following `.`
then reads one past the end.  Whenever the character under the cursor is
a digit and every remaining character is a digit, `nextToken` aborts
with the out-of-range error instead of returning the final integer
token. -/
theorem c9_all_digit_tail_out_of_range :
    ∀ (src : List Char) (cur : Cursor),
      cur.i < src.length →
      (∀ j, cur.i ≤ j → j < src.length → isDigitC (src.getD j ' ') = true) →
      nextToken src cur = .error .outOfRange := by
  intro src cur hlt hd
  have hdig : isDigitC (charAt src cur) = true := hd cur.i (le_refl _) hlt
  have hc48 : 48 ≤ (charAt src cur).toNat ∧ (charAt src cur).toNat ≤ 57 := by
    simp [isDigitC] at hdig; omega
  have hnl : (charAt src cur = '\n') = False := by
    simp only [eq_iff_iff, iff_false]
    intro hcc
    rw [hcc] at hc48
    simp at hc48
  have hsp : isSpaceC (charAt src cur) = false := by
    simp [isSpaceC]
    omega
  have hsl : (charAt src cur = '/') = False := by
    simp only [eq_iff_iff, iff_false]
    intro hcc
    rw [hcc] at hc48
    simp at hc48
  have hscan := scanDigits_consumes_all src src.length cur []
    (le_of_lt hlt) (by omega) hd
  show nextTokenGas src (src.length + 1) cur = .error .outOfRange
  rw [nextTokenGas]
  simp only [hlt, if_true, hnl, hsp, hsl, decide_False, Bool.false_or,
    Bool.false_and, Bool.and_false, if_false, symbolMap_digit_none hdig,
    hdig, if_true]
  simp only [peekChar?, hscan]
  rw [List.get?_eq_none.mpr (by omega)]
  simp

/-- Witness for the amended C9: lexing `"12"` from the start aborts with
the out-of-range error. -/
theorem c9_all_digit_tail_out_of_range_witness :
    (Cursor.i ⟨0, 1, 1⟩ < "12".data.length) ∧
    (∀ j, Cursor.i ⟨0, 1, 1⟩ ≤ j → j < "12".data.length →
      isDigitC ("12".data.getD j ' ') = true) ∧
    nextToken "12".data ⟨0, 1, 1⟩ = .error .outOfRange := by
  refine ⟨by decide, ?_, ?_⟩
  · intro j h1 h2
    have hlen : ("12".data).length = 2 := rfl
    rw [hlen] at h2
    interval_cases j <;> decide
  · apply c9_all_digit_tail_out_of_range "12".data ⟨0, 1, 1⟩ (by decide)
    intro j h1 h2
    have hlen : ("12".data).length = 2 := rfl
    rw [hlen] at h2
    interval_cases j <;> decide


/-! ## Helper lemmas: import processing -/

theorem processImportList_nil (files : List (String × List String))
    (fuel : Nat) (imported order : List String) :
    processImportList files fuel imported order [] =
      .ok (some (imported, order)) := by
  cases fuel <;> rfl

theorem processImportList_zero_cons (files : List (String × List String))
    (imported order : List String) (q : String) (rest : List String) :
    processImportList files 0 imported order (q :: rest) = .ok none := rfl

theorem processImportList_succ (files : List (String × List String))
    (n : Nat) (imported order : List String) (q : String)
    (rest : List String) :
    processImportList files (n + 1) imported order (q :: rest) =
      (match files.lookup q with
      | none => .error (.missingFile q)
      | some _ =>
          if q ∈ imported then processImportList files n imported order rest
          else
            match processFileImports files n (q :: imported) order q with
            | .error e => .error e
            | .ok none => .ok none
            | .ok (some (imported', order')) =>
                processImportList files n imported' order' rest) := rfl

theorem processFileImports_zero (files : List (String × List String))
    (imported order : List String) (p : String) :
    processFileImports files 0 imported order p = .ok none := rfl

theorem processFileImports_succ (files : List (String × List String))
    (n : Nat) (imported order : List String) (p : String) :
    processFileImports files (n + 1) imported order p =
      (match processImportList files n imported order
          ((files.lookup p).getD []) with
      | .error e => .error e
      | .ok none => .ok none
      | .ok (some (imported', order')) =>
          .ok (some (imported', order' ++ [p]))) := rfl

theorem import_mono (files : List (String × List String)) :
    ∀ fuel : Nat,
      (∀ (imported order l : List String) (imp' ord' : List String),
        processImportList files fuel imported order l =
          .ok (some (imp', ord')) → ∀ x ∈ imported, x ∈ imp') ∧
      (∀ (imported order : List String) (p : String) (imp' ord' : List String),
        processFileImports files fuel imported order p =
          .ok (some (imp', ord')) → ∀ x ∈ imported, x ∈ imp') := by
  intro fuel
  induction fuel with
  | zero =>
      constructor
      · intro imported order l imp' ord' h
        cases l with
        | nil =>
            rw [processImportList_nil] at h
            cases h
            exact fun x hx => hx
        | cons q rest =>
            rw [processImportList_zero_cons] at h
            cases h
      · intro imported order p imp' ord' h
        rw [processFileImports_zero] at h
        cases h
  | succ n ih =>
      constructor
      · intro imported order l imp' ord' h
        cases l with
        | nil =>
            rw [processImportList_nil] at h
            cases h
            exact fun x hx => hx
        | cons q rest =>
            rw [processImportList_succ] at h
            cases hlk : files.lookup q with
            | none => rw [hlk] at h; cases h
            | some v =>
                rw [hlk] at h
                by_cases hmem : q ∈ imported
                · rw [if_pos hmem] at h
                  exact ih.1 imported order rest imp' ord' h
                · rw [if_neg hmem] at h
                  cases hfp : processFileImports files n (q :: imported)
                      order q with
                  | error e => rw [hfp] at h; cases h
                  | ok r =>
                      rw [hfp] at h
                      cases r with
                      | none => cases h
                      | some pr =>
                          obtain ⟨i1, o1⟩ := pr
                          have m1 := ih.2 (q :: imported) order q i1 o1 hfp
                          have m2 := ih.1 i1 o1 rest imp' ord' h
                          intro x hx
                          exact m2 x (m1 x (by simp [hx]))
      · intro imported order p imp' ord' h
        rw [processFileImports_succ] at h
        cases hlp : processImportList files n imported order
            ((files.lookup p).getD []) with
        | error e => rw [hlp] at h; cases h
        | ok r =>
            rw [hlp] at h
            cases r with
            | none => cases h
            | some pr =>
                obtain ⟨i1, o1⟩ := pr
                cases h
                exact ih.1 imported order _ _ _ hlp

theorem importWeight_anti (files : List (String × List String)) :
    ∀ (imported imported' : List String),
      (∀ x ∈ imported, x ∈ imported') →
      ((files.filter (fun p => decide (p.1 ∉ imported'))).map
        (fun p => p.2.length + 1)).sum ≤
      ((files.filter (fun p => decide (p.1 ∉ imported))).map
        (fun p => p.2.length + 1)).sum := by
  induction files with
  | nil => intro _ _ _; simp
  | cons f rest ih =>
      intro imported imported' hsub
      simp only [List.filter_cons]
      by_cases h1 : f.1 ∈ imported'
      · by_cases h3 : f.1 ∈ imported
        · simp only [h1, h3, not_true, decide_False, if_false,
            Bool.false_eq_true]
          simpa using ih imported imported' hsub
        · have := ih imported imported' hsub
          simp only [h1, h3, not_true, not_false_iff, decide_False,
            decide_True, Bool.false_eq_true, if_false, if_true,
            List.map_cons, List.sum_cons]
          omega
      · have h3 : f.1 ∉ imported := fun hx => h1 (hsub _ hx)
        have := ih imported imported' hsub
        simp only [h1, h3, not_false_iff, decide_True, if_true,
          List.map_cons, List.sum_cons]
        omega

theorem importWeight_dec (files : List (String × List String)) :
    ∀ (imported : List String) (q : String) (l : List String),
      q ∉ imported → files.lookup q = some l →
      l.length + 1 +
        ((files.filter (fun p => decide (p.1 ∉ (q :: imported)))).map
          (fun p => p.2.length + 1)).sum ≤
      ((files.filter (fun p => decide (p.1 ∉ imported))).map
        (fun p => p.2.length + 1)).sum := by
  induction files with
  | nil => intro imported q l _ h; cases h
  | cons f rest ih =>
      intro imported q l hq hlk
      simp only [List.filter_cons]
      by_cases hfq : f.1 = q
      · have hl : l = f.2 := by
          simp [List.lookup, hfq] at hlk
          rw [← hlk]
        subst hl
        have h2 : (decide (f.1 ∉ (q :: imported))) = false := by
          simp [hfq]
        have h4 : (decide (f.1 ∉ imported)) = true := by
          simp [hfq, hq]
        have := importWeight_anti rest imported (q :: imported)
          (fun x hx => by simp [hx])
        simp only [h2, h4, if_true, if_false, Bool.false_eq_true,
          List.map_cons, List.sum_cons]
        omega
      · have hlk' : rest.lookup q = some l := by
          simp only [List.lookup] at hlk
          rw [show (q == f.1) = false by simp [Ne.symm hfq]] at hlk
          exact hlk
        have heq : decide (f.1 ∉ (q :: imported)) = decide (f.1 ∉ imported) := by
          by_cases hf : f.1 ∈ imported
          · simp [hf]
          · simp [hf, hfq]
        rw [heq]
        have hrec := ih imported q l hq hlk'
        by_cases hf : decide (f.1 ∉ imported) = true
        · simp only [hf, if_true, List.map_cons, List.sum_cons]
          omega
        · rw [Bool.not_eq_true] at hf
          simp only [hf, Bool.false_eq_true, if_false]
          exact hrec

theorem import_sufficient (files : List (String × List String)) :
    ∀ fuel : Nat,
      (∀ (imported order l : List String),
        l.length +
          ((files.filter (fun p => decide (p.1 ∉ imported))).map
            (fun p => p.2.length + 1)).sum ≤ fuel →
        processImportList files fuel imported order l ≠ .ok none) ∧
      (∀ (imported order : List String) (p : String),
        1 + ((files.lookup p).getD []).length +
          ((files.filter (fun p => decide (p.1 ∉ imported))).map
            (fun p => p.2.length + 1)).sum ≤ fuel →
        processFileImports files fuel imported order p ≠ .ok none) := by
  intro fuel
  induction fuel with
  | zero =>
      constructor
      · intro imported order l hb
        cases l with
        | nil => rw [processImportList_nil]; intro h; cases h
        | cons q rest => simp at hb
      · intro imported order p hb
        omega
  | succ n ih =>
      constructor
      · intro imported order l hb
        cases l with
        | nil => rw [processImportList_nil]; intro h; cases h
        | cons q rest =>
            rw [processImportList_succ]
            cases hlk : files.lookup q with
            | none => intro h; cases h
            | some v =>
                by_cases hmem : q ∈ imported
                · rw [if_pos hmem]
                  apply ih.1
                  simp only [List.length_cons] at hb
                  omega
                · rw [if_neg hmem]
                  have hdec := importWeight_dec files imported q v hmem hlk
                  have hfp : processFileImports files n (q :: imported)
                      order q ≠ .ok none := by
                    apply ih.2
                    rw [hlk]
                    simp only [Option.getD_some]
                    simp only [List.length_cons] at hb
                    omega
                  cases hfp2 : processFileImports files n (q :: imported)
                      order q with
                  | error e => intro h; cases h
                  | ok r =>
                      cases r with
                      | none => exact absurd hfp2 hfp
                      | some pr =>
                          obtain ⟨i1, o1⟩ := pr
                          apply ih.1
                          have hmono := (import_mono files n).2
                            (q :: imported) order q i1 o1 hfp2
                          have hanti := importWeight_anti files
                            (q :: imported) i1 hmono
                          simp only [List.length_cons] at hb
                          omega
      · intro imported order p hb
        rw [processFileImports_succ]
        have hlp : processImportList files n imported order
            ((files.lookup p).getD []) ≠ .ok none := by
          apply ih.1
          omega
        cases hlp2 : processImportList files n imported order
            ((files.lookup p).getD []) with
        | error e => intro h; cases h
        | ok r =>
            cases r with
            | none => exact absurd hlp2 hlp
            | some pr =>
                obtain ⟨i1, o1⟩ := pr
                intro h
                cases h

theorem import_invariant (files : List (String × List String)) :
    ∀ fuel : Nat,
      (∀ (imported order l : List String) (imp' ord' : List String),
        processImportList files fuel imported order l =
          .ok (some (imp', ord')) →
        ∃ d, ord' = order ++ d ∧ d.Nodup ∧ (∀ x ∈ d, x ∉ imported) ∧
          (∀ x ∈ d, x ∈ imp')) ∧
      (∀ (imported order : List String) (p : String) (imp' ord' : List String),
        p ∈ imported →
        processFileImports files fuel imported order p =
          .ok (some (imp', ord')) →
        ∃ d, ord' = order ++ d ∧ d.Nodup ∧ (∀ x ∈ d, x = p ∨ x ∉ imported) ∧
          (∀ x ∈ d, x ∈ imp')) := by
  intro fuel
  induction fuel with
  | zero =>
      constructor
      · intro imported order l imp' ord' h
        cases l with
        | nil =>
            rw [processImportList_nil] at h
            cases h
            exact ⟨[], by simp⟩
        | cons q rest =>
            rw [processImportList_zero_cons] at h
            cases h
      · intro imported order p imp' ord' _ h
        rw [processFileImports_zero] at h
        cases h
  | succ n ih =>
      constructor
      · intro imported order l imp' ord' h
        cases l with
        | nil =>
            rw [processImportList_nil] at h
            cases h
            exact ⟨[], by simp⟩
        | cons q rest =>
            rw [processImportList_succ] at h
            cases hlk : files.lookup q with
            | none => rw [hlk] at h; cases h
            | some v =>
                rw [hlk] at h
                by_cases hmem : q ∈ imported
                · rw [if_pos hmem] at h
                  exact ih.1 imported order rest imp' ord' h
                · rw [if_neg hmem] at h
                  cases hfp : processFileImports files n (q :: imported)
                      order q with
                  | error e => rw [hfp] at h; cases h
                  | ok r =>
                      rw [hfp] at h
                      cases r with
                      | none => cases h
                      | some pr =>
                          obtain ⟨i1, o1⟩ := pr
                          obtain ⟨d1, hd1o, hd1n, hd1i, hd1m⟩ :=
                            ih.2 (q :: imported) order q i1 o1 (by simp) hfp
                          obtain ⟨d2, hd2o, hd2n, hd2i, hd2m⟩ :=
                            ih.1 i1 o1 rest imp' ord' h
                          have hm1 := import_mono files n
                          have hmono1 := hm1.2 (q :: imported) order q i1 o1 hfp
                          have hmono2 := hm1.1 i1 o1 rest imp' ord' h
                          refine ⟨d1 ++ d2, ?_, ?_, ?_, ?_⟩
                          · rw [hd2o, hd1o, List.append_assoc]
                          · refine List.Nodup.append hd1n hd2n ?_
                            intro a ha1 ha2
                            exact (hd2i a ha2) (hd1m a ha1)
                          · intro x hx
                            rcases List.mem_append.mp hx with hx1 | hx2
                            · rcases hd1i x hx1 with rfl | hni
                              · exact hmem
                              · exact fun hxi => hni (by simp [hxi])
                            · intro hxi
                              exact (hd2i x hx2) (hmono1 x (by simp [hxi]))
                          · intro x hx
                            rcases List.mem_append.mp hx with hx1 | hx2
                            · exact hmono2 x (hd1m x hx1)
                            · exact hd2m x hx2
      · intro imported order p imp' ord' hp h
        rw [processFileImports_succ] at h
        cases hlp : processImportList files n imported order
            ((files.lookup p).getD []) with
        | error e => rw [hlp] at h; cases h
        | ok r =>
            rw [hlp] at h
            cases r with
            | none => cases h
            | some pr =>
                obtain ⟨i1, o1⟩ := pr
                cases h
                obtain ⟨d1, hd1o, hd1n, hd1i, hd1m⟩ :=
                  ih.1 imported order _ imp' o1 hlp
                have hmono := (import_mono files n).1 imported order _ imp' o1 hlp
                refine ⟨d1 ++ [p], ?_, ?_, ?_, ?_⟩
                · rw [hd1o, List.append_assoc]
                · refine List.Nodup.append hd1n (by simp) ?_
                  intro a ha1 ha2
                  simp at ha2
                  subst ha2
                  exact (hd1i a ha1) hp
                · intro x hx
                  rcases List.mem_append.mp hx with hx1 | hx2
                  · exact Or.inr (hd1i x hx1)
                  · simp at hx2
                    exact Or.inl hx2
                · intro x hx
                  rcases List.mem_append.mp hx with hx1 | hx2
                  · exact hd1m x hx1
                  · simp at hx2
                    subst hx2
                    exact hmono x hp

theorem filter_weight_le (files : List (String × List String))
    (pred : String × List String → Bool) :
    ((files.filter pred).map (fun p => p.2.length + 1)).sum ≤
      (files.map (fun p => p.2.length + 1)).sum := by
  induction files with
  | nil => simp
  | cons f rest ih =>
      simp only [List.filter_cons]
      by_cases hf : pred f = true
      · simp only [hf, if_true, List.map_cons, List.sum_cons]
        omega
      · rw [Bool.not_eq_true] at hf
        simp only [hf, Bool.false_eq_true, if_false, List.map_cons,
          List.sum_cons]
        omega

/-- C10: import processing terminates on every import graph — cyclic and
self-imports included — because each file's canonical path is inserted
into the imported set *before* its imports are processed, and an import
whose path is already in the set is skipped.  Formally: (i) a recursion
budget of one plus the root's import count plus the total size of the
file system always suffices (the budget-exhaustion marker `none` is never
returned); (ii) whenever processing completes, the parse order lists
each file at most once (no re-parse), every parsed file is in the
imported set, and the root was inserted up-front. -/
theorem c10_import_processing_terminates :
    ∀ (files : List (String × List String)) (root : String),
      (∀ fuel : Nat,
        1 + ((files.lookup root).getD []).length +
          (files.map (fun p => p.2.length + 1)).sum ≤ fuel →
        parseRootImports files fuel root ≠ .ok none) ∧
      (∀ (fuel : Nat) (imp' ord' : List String),
        parseRootImports files fuel root = .ok (some (imp', ord')) →
        root ∈ imp' ∧ ord'.Nodup ∧ ∀ x ∈ ord', x ∈ imp') := by
  intro files root
  constructor
  · intro fuel hb
    show processFileImports files fuel [root] [] root ≠ .ok none
    apply (import_sufficient files fuel).2
    have hw := filter_weight_le files (fun p => decide (p.1 ∉ ([root] : List String)))
    omega
  · intro fuel imp' ord' h
    have h' : processFileImports files fuel [root] [] root =
        .ok (some (imp', ord')) := h
    obtain ⟨d, hdo, hdn, _, hdm⟩ :=
      (import_invariant files fuel).2 [root] [] root imp' ord' (by simp) h'
    have hmono := (import_mono files fuel).2 [root] [] root imp' ord' h'
    simp only [List.nil_append] at hdo
    subst hdo
    exact ⟨hmono root (by simp), hdn, hdm⟩

/-- Witness for C10 on a concrete cyclic import graph (`a` imports `b`;
`b` imports `a` twice): the sufficient budget is met at 7, processing
does not exhaust it, and the resulting parse order `[b, a]` is
duplicate-free. -/
theorem c10_import_processing_terminates_witness :
    (1 + ((([("a", ["b"]), ("b", ["a", "a"])] :
        List (String × List String)).lookup "a").getD []).length +
      (([("a", ["b"]), ("b", ["a", "a"])] :
        List (String × List String)).map (fun p => p.2.length + 1)).sum ≤ 7) ∧
    parseRootImports [("a", ["b"]), ("b", ["a", "a"])] 7 "a" ≠ .ok none ∧
    ("a" ∈ ["b", "a"] ∧ (["b", "a"] : List String).Nodup ∧
      ∀ x ∈ (["b", "a"] : List String), x ∈ (["b", "a"] : List String)) :=
  ⟨by decide,
   (c10_import_processing_terminates [("a", ["b"]), ("b", ["a", "a"])] "a").1
      7 (by decide),
   (c10_import_processing_terminates [("a", ["b"]), ("b", ["a", "a"])] "a").2
      7 ["b", "a"] ["b", "a"] (by rfl)⟩

end Axen
